import Mathlib

/-!
Verification development for the StripeProtection.com lead pipeline.

The repository has three HTTP handlers:
  * `src/api/submit.js`      — the POST /submit ingestion fan-out pipeline,
  * `src/unnamed/part_000`   — the GET /leads-search query router over DynamoDB GSIs,
  * `src/unnamed/part_001`   — the GET /leads-list S3 enumeration endpoint.

This file shallowly embeds the decision logic of those handlers: JavaScript
values are modelled by the inductive `JVal` (JSON-parsed request bodies carry
no `undefined`, which is modelled as `Option.none` at access sites), machine
side effects (S3/DynamoDB/SES network calls) are modelled by explicit
outcome parameters, and each handler becomes a pure function from its inputs
to a structured outcome.
-/

/-- A JavaScript value as it can occur in a JSON-parsed request body.
Numbers are modelled as integers: no claim touches fractional numerics. -/
inductive JVal where
  | null
  | bool (b : Bool)
  | num (n : Int)
  | str (s : String)
  | arr (xs : List JVal)
  | obj (fields : List (String × JVal))

/-- A JavaScript object: an ordered association list of fields. -/
abbrev JObj := List (String × JVal)

/-- Association-list lookup used for JS property access on modelled objects. -/
def alook {α : Type} : List (String × α) → String → Option α
  | [], _ => none
  | p :: rest, k => if p.1 = k then some p.2 else alook rest k

/-- JS truthiness: the falsy values among the modelled ones are
`null`, `false`, `0` and the empty string. -/
def jsFalsy : JVal → Bool
  | .null => true
  | .bool b => !b
  | .num n => n == 0
  | .str s => s == ""
  | .arr _ => false
  | .obj _ => false

mutual

/-- JS `String(v)` coercion on the modelled values.  Arrays stringify by
joining their elements with commas, `null` elements joining as empty text. -/
def jsToString : JVal → String
  | .null => "null"
  | .bool b => if b then "true" else "false"
  | .num n => toString n
  | .str s => s
  | .arr xs => String.intercalate "," (jsArrParts xs)
  | .obj _ => "[object Object]"

/-- Element texts for JS array stringification. -/
def jsArrParts : List JVal → List String
  | [] => []
  | .null :: rest => "" :: jsArrParts rest
  | v :: rest => jsToString v :: jsArrParts rest

end

/-- Property access `v.k` for a possibly non-object `v`: accessing a member
of a non-object primitive yields `undefined` (modelled `none`). -/
def jGet : JVal → String → Option JVal
  | .obj o, k => alook o k
  | _, _ => none

/-- Keep a value only when it is present and truthy; models the way `&&` and
`||` chains in the source discard falsy intermediate values. -/
def truthyOpt : Option JVal → Option JVal
  | some v => if jsFalsy v then none else some v
  | none => none

/-- JS `a || d` for an optional string `a` and a string default `d`:
absent or empty strings fall through to the default. -/
def orStr (a : Option String) (d : String) : String :=
  match a with
  | some s => if s = "" then d else s
  | none => d

/-- JS `a || b` for two optional strings, keeping optionality. -/
def optOr (a b : Option String) : Option String :=
  match a with
  | some s => if s = "" then b else some s
  | none => b

/-- Truthiness of an optional environment string. -/
def truthyS (a : Option String) : Bool :=
  match a with
  | some s => s ≠ ""
  | none => false

/-- Object spread `\x7b ...a, ...b \x7d`: fields of `a` in order with values
overridden by `b` on key collision, then the fields of `b` whose keys do not
occur in `a`, in order.  Later spread entries win, as in JavaScript. -/
def spreadMerge (a b : JObj) : JObj :=
  a.map (fun p => (p.1, (alook b p.1).getD p.2)) ++
    b.filter (fun p => (alook a p.1).isNone)

/-! ## src/api/submit.js -/

/-- `slug` from src/api/submit.js line 41-45, acting on an already
string-coerced, lower-cased character list: alphanumeric characters are kept
and every maximal run of other characters becomes a single hyphen.  The
`isRun` flag records whether the previous character belonged to such a run. -/
def collapseGo (isRun : Bool) : List Char → List Char
  | [] => []
  | c :: rest =>
    if ('a' ≤ c ∧ c ≤ 'z') ∨ ('0' ≤ c ∧ c ≤ '9') then c :: collapseGo false rest
    else if isRun then collapseGo true rest
    else '-' :: collapseGo true rest

/-- Drop one leading hyphen, as the `^-` alternative of the trim regex does. -/
def dropLeadHyphen : List Char → List Char
  | '-' :: rest => rest
  | l => l

/-- The string body of `slug`: lower-case, collapse non-alphanumeric runs to
single hyphens, then strip one leading and one trailing hyphen (the collapse
step guarantees there is at most one of each). -/
def slugStr (s : String) : String :=
  String.mk ((dropLeadHyphen (dropLeadHyphen (collapseGo false (s.data.map Char.toLower))).reverse).reverse)

/-- `slug(val, fallback)` from src/api/submit.js: falsy or absent input and
an empty slug both yield the fallback token. -/
def slug (v : Option JVal) (fallback : String) : String :=
  match v with
  | none => fallback
  | some v =>
      if jsFalsy v then fallback
      else
        let s := slugStr (jsToString v)
        if s = "" then fallback else s

/-- `payload.id` when it is a non-empty string (src/api/submit.js line 79). -/
def clientId (payload : JObj) : Option String :=
  match alook payload "id" with
  | some (.str s) => if s = "" then none else some s
  | _ => none

/-- JS `String.prototype.trim`, acting on the character list so that it
reduces by computation. -/
def jsTrim (s : String) : String :=
  String.mk (((s.data.dropWhile Char.isWhitespace).reverse.dropWhile Char.isWhitespace).reverse)

/-- JS `String.prototype.toLowerCase` on the character list. -/
def jsToLower (s : String) : String :=
  String.mk (s.data.map Char.toLower)

/-- The local `status` variable (line 80): the lower-cased supplied status
when it is a non-empty string, otherwise the literal "final". -/
def statusVar (payload : JObj) : String :=
  match alook payload "status" with
  | some (.str s) => if s = "" then "final" else jsToLower s
  | _ => "final"

/-- The client IP (line 85): forwarded-for header, else the socket peer
address, else the empty string; JS `||` chains skip empty strings. -/
def ipOf (xff remote : Option String) : String :=
  orStr xff (orStr remote "")

/-- The LeadDocument (lines 81-88): server metadata object spread together
with the payload, the payload spread last. -/
def buildDoc (payload : JObj) (fresh nowIso ip ua : String) : JObj :=
  spreadMerge
    [("id", .str ((clientId payload).getD fresh)),
     ("status", .str (statusVar payload)),
     ("received_at", .str nowIso),
     ("ip", .str ip),
     ("user_agent", .str ua)]
    payload

/-- Field read on the built document; the five server fields are always
present, so the `.null` default is never observed for them. -/
def docVal (doc : JObj) (k : String) : JVal :=
  (alook doc k).getD .null

/-- The `payload.source || (payload.data && payload.data.source)` chain of
line 101, as the truthy value it contributes to `slug`. -/
def keySource (payload : JObj) : Option JVal :=
  match truthyOpt (alook payload "source") with
  | some v => some v
  | none =>
    match truthyOpt (alook payload "data") with
    | some d => jGet d "source"
    | none => none

/-- The `payload.data && payload.data.industry` chain of line 102. -/
def keyIndustry (payload : JObj) : Option JVal :=
  match truthyOpt (alook payload "data") with
  | some d => jGet d "industry"
  | none => none

/-- The `payload.data && payload.data.utm_data && ...utm_source` chain of
line 103. -/
def keyUtm (payload : JObj) : Option JVal :=
  match truthyOpt (alook payload "data") with
  | some d =>
    match truthyOpt (jGet d "utm_data") with
    | some u => jGet u "utm_source"
    | none => none
  | none => none

/-- `slug(X || d)` as lines 100-103 compose it for the status, source,
utm and industry segments: a falsy or absent `X` is first replaced by the
stage default `d`, and `slug` then runs with its own fallback "na" — so a
truthy value whose slug comes out empty yields "na", not the stage
default. -/
def slugOrDefault (v : Option JVal) (d : String) : String :=
  match truthyOpt v with
  | some w => slug (some w) "na"
  | none => slug (some (.str d)) "na"

/-- The storage key of line 104:
`pre/statusPart/datePart/source=.../utm=.../industry=.../id.json`, where
`pre` is the configured key namespace, `datePart` is the first ten
characters of the ISO timestamp and the id lands in the path through
template-literal string coercion. -/
def mkStorageKey (pre sv nowIso : String) (payload : JObj) (docIdStr : String) : String :=
  pre ++ "/" ++ slugOrDefault (some (.str sv)) "final" ++ "/" ++ String.mk (nowIso.data.take 10) ++
    "/source=" ++ slugOrDefault (keySource payload) "web" ++
    "/utm=" ++ slugOrDefault (keyUtm payload) "direct" ++
    "/industry=" ++ slugOrDefault (keyIndustry payload) "na" ++
    "/" ++ docIdStr ++ ".json"

/-- A DynamoDB attribute as written by the ingestion handler: every item
field is built with the `S:` (string) tag, but the tagged payload is the raw
JS value the source puts there (lines 129 and 131 omit the `String()`
coercion for `doc.id` and `doc.received_at`). -/
inductive DdbAttr where
  | S (v : JVal)

/-- `payload.data ? payload.data : payload` (line 126). -/
def dataVal (payload : JObj) : JVal :=
  (truthyOpt (alook payload "data")).getD (.obj payload)

/-- `String((data && data.k) || '')` on the projected data object. -/
def sOf (o : Option JVal) : String :=
  match truthyOpt o with
  | some v => jsToString v
  | none => ""

/-- The secondary-index item of lines 128-141, in source field order. -/
def ddbItemOf (doc : JObj) (payload : JObj) (key : String) : List (String × DdbAttr) :=
  let data := dataVal payload
  [("id", .S (docVal doc "id")),
   ("status", .S (.str (if jsFalsy (docVal doc "status") then "final"
                        else jsToString (docVal doc "status")))),
   ("received_at", .S (docVal doc "received_at")),
   ("email", .S (.str (sOf (jGet data "email")))),
   ("utm_source", .S (.str
      (match truthyOpt (jGet data "utm_data") with
       | some u =>
         match truthyOpt (jGet u "utm_source") with
         | some v => jsToString v
         | none => "direct"
       | none => "direct"))),
   ("s3_key", .S (.str key)),
   ("first_name", .S (.str (sOf (jGet data "first_name")))),
   ("last_name", .S (.str (sOf (jGet data "last_name")))),
   ("phone", .S (.str (sOf (jGet data "phone")))),
   ("company", .S (.str
      (match truthyOpt (jGet data "name") with
       | some v => jsToString v
       | none => sOf (jGet data "company_name")))),
   ("website", .S (.str (sOf (jGet data "website")))),
   ("industry", .S (.str (sOf (jGet data "industry"))))]

/-- The data interpolated into the SES notification (lines 153-169): the
plaintext template is modelled by the record of the values it interpolates;
`key` is the storage key the stage observes, rendered through
`notifKeyLine` below. -/
structure Notification where
  statusText : String
  key : String
  docId : String
  receivedAt : String
  ip : String
  ua : String
  dataDump : JVal

/-- The `Key:` line of the notification body, with the `(none)` fallback
of line 159 for a falsy key. -/
def notifKeyLine (n : Notification) : String :=
  "Key: " ++ (if n.key = "" then "(none)" else n.key)

/-- The terminal JSON response of line 236. -/
structure SubmitResponse where
  httpStatus : Nat
  ok : Bool
  stored : String
  key : String
  id : JVal
  status : JVal

/-- Environment configuration read by the ingestion handler. -/
structure SubmitEnv where
  bucket : Option String
  region : Option String
  keyPre : Option String
  s3Sdk : Bool
  ddbTable : Option String
  ddbRegion : Option String
  ddbSdk : Bool
  sesTo : Option String
  sesFrom : Option String
  sesRegion : Option String
  sesSdk : Bool

/-- Everything one POST produces: the HTTP response, the attempted
secondary-index write (when that sink is configured) and the notification
(when its stage fires). -/
structure SubmitResult where
  resp : SubmitResponse
  indexWrite : Option (List (String × DdbAttr))
  notif : Option Notification

/-- The ingestion pipeline of src/api/submit.js lines 77-236, from the
parsed payload on.  The S3 write outcome is the explicit `s3Ok` parameter:
`false` models the send raising, which the source catches, turning
`stored` into "error" and resetting `key` to the empty string (lines
113-118).  The DynamoDB and SES stages are modelled up to the write/send
they attempt; their own failures are caught and change nothing observable
here.  The CRM fan-out (lines 176-234) touches no claimed state. -/
def submitPipeline (payload : JObj) (fresh nowIso : String)
    (xff remote uaHdr : Option String) (env : SubmitEnv) (s3Ok : Bool) :
    SubmitResult :=
  let doc := buildDoc payload fresh nowIso (ipOf xff remote) (orStr uaHdr "")
  let sv := statusVar payload
  let pre := orStr env.keyPre "leads"
  let s3cfg := truthyS env.bucket && truthyS env.region && env.s3Sdk
  let storedKey :=
    if s3cfg then
      if s3Ok then ("s3", mkStorageKey pre sv nowIso payload (jsToString (docVal doc "id")))
      else ("error", "")
    else ("none", "")
  let ddbcfg := truthyS env.ddbTable && truthyS (optOr env.region env.ddbRegion) && env.ddbSdk
  let indexWrite :=
    if ddbcfg then some (ddbItemOf doc payload storedKey.2) else none
  let sesFires := sv == "final" && truthyS env.sesTo && truthyS env.sesFrom
      && truthyS (optOr env.sesRegion env.region) && env.sesSdk
  let notif : Option Notification :=
    if sesFires then
      some { statusText := sv
             key := storedKey.2
             docId := jsToString (docVal doc "id")
             receivedAt := jsToString (docVal doc "received_at")
             ip := jsToString (docVal doc "ip")
             ua := jsToString (docVal doc "user_agent")
             dataDump := dataVal payload }
    else none
  { resp := { httpStatus := 200, ok := true, stored := storedKey.1,
              key := storedKey.2, id := docVal doc "id", status := docVal doc "status" }
    indexWrite := indexWrite
    notif := notif }

/-- Method dispatch of lines 52-56 around the pipeline. -/
inductive SubmitOutcome where
  | noContent204
  | methodNotAllowed405
  | handled (r : SubmitResult)

/-- The full handler: OPTIONS short-circuits with 204, non-POST with 405,
POST runs the pipeline. -/
def submitHandler (method : String) (payload : JObj) (fresh nowIso : String)
    (xff remote uaHdr : Option String) (env : SubmitEnv) (s3Ok : Bool) :
    SubmitOutcome :=
  if method = "OPTIONS" then .noContent204
  else if method ≠ "POST" then .methodNotAllowed405
  else .handled (submitPipeline payload fresh nowIso xff remote uaHdr env s3Ok)

/-- The fallback UUID generator of lines 13-20: the template string with
each `x` replaced by a random hex digit and the `y` by a digit from 8 to b.
The randomness source is an explicit stream of naturals, truncated mod 16
exactly as `(Math.random() * 16) | 0` truncates.  The `crypto.randomUUID`
branch produces the same version-4 format. -/
def hexCharOf (n : Nat) : Char :=
  if n < 10 then Char.ofNat (48 + n) else Char.ofNat (87 + n)

/-- Template traversal for the UUID generator; `i` counts the replacements
made so far and indexes the random stream. -/
def genUuidGo (rnd : Nat → Nat) : List Char → Nat → List Char
  | [], _ => []
  | c :: rest, i =>
    if c = 'x' then hexCharOf (rnd i % 16) :: genUuidGo rnd rest (i + 1)
    else if c = 'y' then hexCharOf (rnd i % 16 % 4 + 8) :: genUuidGo rnd rest (i + 1)
    else c :: genUuidGo rnd rest i

/-- The generated identifier. -/
def genUuid (rnd : Nat → Nat) : String :=
  String.mk (genUuidGo rnd "xxxxxxxx-xxxx-4xxx-yxxx-xxxxxxxxxxxx".data 0)

/-- A lower-case hexadecimal digit. -/
def isHexD (c : Char) : Bool :=
  ('0' ≤ c && c ≤ '9') || ('a' ≤ c && c ≤ 'f')

/-- Syntactic version-4 UUID format: 36 characters, hyphens at positions
8, 13, 18 and 23, the version nibble `4`, the variant nibble in 8..b and
hex digits everywhere else. -/
def isUuidV4 (s : String) : Bool :=
  match s.data with
  | a0 :: a1 :: a2 :: a3 :: a4 :: a5 :: a6 :: a7 :: '-' ::
    b0 :: b1 :: b2 :: b3 :: '-' :: '4' :: c1 :: c2 :: c3 :: '-' ::
    y0 :: d1 :: d2 :: d3 :: '-' :: tail =>
      match tail with
      | [e0,e1,e2,e3,e4,e5,e6,e7,e8,e9,e10,e11] =>
          [a0,a1,a2,a3,a4,a5,a6,a7,b0,b1,b2,b3,c1,c2,c3,d1,d2,d3,
           e0,e1,e2,e3,e4,e5,e6,e7,e8,e9,e10,e11].all isHexD
          && (y0 == '8' || y0 == '9' || y0 == 'a' || y0 == 'b')
      | _ => false
  | _ => false

/-! ## The pagination codec (src/unnamed/part_000, lines 96-98 and 107-111)

The encoder serializes the DynamoDB `LastEvaluatedKey` with
`JSON.stringify` and base64-encodes the text; the decoder base64-decodes
the token and runs `JSON.parse`, any failure being caught so that no
resume position is set.  Both are modelled at the byte level: a byte is a
`Nat` below 256, so no UTF-8 transcoding layer is needed.  A
last-evaluated key for the indexes of this table is an ordered mapping
from attribute names to string (`S`-tagged) attribute values. -/

/-- Bytes of a JSON text. -/
abbrev Bytes := List Nat

/-- A last-evaluated key: attribute name/value pairs, both byte strings. -/
abbrev Lekey := List (Bytes × Bytes)

/-- Well-formed byte strings hold bytes below 256. -/
def wfBytes (s : Bytes) : Prop := ∀ b ∈ s, b < 256

/-- Well-formed keys have well-formed names and values. -/
def wfLekey (k : Lekey) : Prop := ∀ p ∈ k, wfBytes p.1 ∧ wfBytes p.2

instance : DecidablePred wfBytes := fun s =>
  inferInstanceAs (Decidable (∀ b ∈ s, b < 256))

instance : DecidablePred wfLekey := fun k =>
  inferInstanceAs (Decidable (∀ p ∈ k, wfBytes p.1 ∧ wfBytes p.2))

/-- The byte of a lower-case hex digit for a nibble. -/
def hexDigitByte (n : Nat) : Nat :=
  if n < 10 then 48 + n else 87 + n

/-- `JSON.stringify` escaping of one byte inside a string literal: quote
and backslash get two-byte escapes, the five named control characters get
their short escapes, other control bytes become `\u00XX`, everything else
is emitted verbatim. -/
def escByte (b : Nat) : Bytes :=
  if b = 34 then [92, 34]
  else if b = 92 then [92, 92]
  else if b = 8 then [92, 98]
  else if b = 9 then [92, 116]
  else if b = 10 then [92, 110]
  else if b = 12 then [92, 102]
  else if b = 13 then [92, 114]
  else if b < 32 then [92, 117, 48, 48, hexDigitByte (b / 16), hexDigitByte (b % 16)]
  else [b]

/-- Escaped body of a string literal. -/
def escBytes (s : Bytes) : Bytes := (s.map escByte).flatten

/-- A JSON string literal: quote, escaped body, quote. -/
def strLit (s : Bytes) : Bytes := 34 :: (escBytes s ++ [34])

/-- The serialized attribute value, an object with the single member `S`. -/
def attrBytes (v : Bytes) : Bytes :=
  123 :: (strLit [83] ++ 58 :: (strLit v ++ [125]))

/-- One serialized key member: `name: attr`. -/
def memBytes (m : Bytes × Bytes) : Bytes :=
  strLit m.1 ++ 58 :: attrBytes m.2

/-- The members after the first, each preceded by a comma. -/
def tailBytes (ms : Lekey) : Bytes :=
  (ms.map (fun m => 44 :: memBytes m)).flatten

/-- `JSON.stringify` of a last-evaluated key: the members in insertion
order inside braces, with no whitespace, exactly as V8 serializes a flat
object of string-tagged attributes. -/
def stringifyLekey : Lekey → Bytes
  | [] => [123, 125]
  | m :: ms => 123 :: (memBytes m ++ tailBytes ms ++ [125])

/-- A parsed JSON document.  Numbers keep their lexeme: the decoder never
interprets numerics, so no floating-point semantics is modelled. -/
inductive Json where
  | null
  | bool (b : Bool)
  | num (lexeme : Bytes)
  | str (s : Bytes)
  | arr (elems : List Json)
  | obj (members : List (Bytes × Json))

/-- The JSON value the encoder's input denotes. -/
def lekeyToJson (k : Lekey) : Json :=
  Json.obj (k.map (fun m => (m.1, Json.obj [([83], Json.str m.2)])))

/-- Value of a hex digit byte, upper or lower case. -/
def hexVal (b : Nat) : Option Nat :=
  if 48 ≤ b ∧ b ≤ 57 then some (b - 48)
  else if 97 ≤ b ∧ b ≤ 102 then some (b - 87)
  else if 65 ≤ b ∧ b ≤ 70 then some (b - 55)
  else none

/-- Parse the body of a JSON string literal after its opening quote,
returning the decoded bytes and the input after the closing quote: the
two-byte escapes, the `\u` hex escape, and verbatim non-control bytes;
unescaped control bytes are rejected, as strict JSON requires. -/
def parseStr : Bytes → Option (Bytes × Bytes)
  | [] => none
  | 34 :: rest => some ([], rest)
  | 92 :: 34 :: r => (parseStr r).map (fun p => (34 :: p.1, p.2))
  | 92 :: 92 :: r => (parseStr r).map (fun p => (92 :: p.1, p.2))
  | 92 :: 47 :: r => (parseStr r).map (fun p => (47 :: p.1, p.2))
  | 92 :: 98 :: r => (parseStr r).map (fun p => (8 :: p.1, p.2))
  | 92 :: 116 :: r => (parseStr r).map (fun p => (9 :: p.1, p.2))
  | 92 :: 110 :: r => (parseStr r).map (fun p => (10 :: p.1, p.2))
  | 92 :: 102 :: r => (parseStr r).map (fun p => (12 :: p.1, p.2))
  | 92 :: 114 :: r => (parseStr r).map (fun p => (13 :: p.1, p.2))
  | 92 :: 117 :: h1 :: h2 :: h3 :: h4 :: r =>
    (match hexVal h1, hexVal h2, hexVal h3, hexVal h4 with
     | some x1, some x2, some x3, some x4 =>
       (parseStr r).map (fun p => ((x1 * 4096 + x2 * 256 + x3 * 16 + x4) :: p.1, p.2))
     | _, _, _, _ => none)
  | 92 :: _ => none
  | b :: rest => if b < 32 then none else (parseStr rest).map (fun p => (b :: p.1, p.2))

/-- JSON insignificant whitespace. -/
def isWsByte (b : Nat) : Bool :=
  b == 32 || b == 9 || b == 10 || b == 13

/-- Skip insignificant whitespace. -/
def skipWs (input : Bytes) : Bytes := input.dropWhile isWsByte

/-- A decimal digit byte. -/
def isDigitB (b : Nat) : Bool :=
  48 ≤ b && b ≤ 57

/-- The integer part of a JSON number: a lone `0`, or a nonzero digit
followed by any digits — leading zeros are not absorbed, so `01` leaves
the second digit behind and full-document parsing then fails, exactly as
`JSON.parse` rejects it. -/
def lexInt : Bytes → Option (Bytes × Bytes)
  | [] => none
  | b :: rest =>
    if b = 48 then some ([48], rest)
    else if 49 ≤ b ∧ b ≤ 57 then
      some (b :: rest.takeWhile isDigitB, rest.dropWhile isDigitB)
    else none

/-- The optional fraction part: a dot must be followed by at least one
digit, else the whole number is malformed (`1.` throws in `JSON.parse`). -/
def lexFracOpt : Bytes → Option (Bytes × Bytes)
  | 46 :: rest =>
    let ds := rest.takeWhile isDigitB
    if ds = [] then none else some (46 :: ds, rest.dropWhile isDigitB)
  | l => some ([], l)

/-- The optional exponent part: `e`/`E`, an optional sign, then at least
one digit (`1e+` throws in `JSON.parse`). -/
def lexExpOpt : Bytes → Option (Bytes × Bytes)
  | [] => some ([], [])
  | b :: rest =>
    if b = 101 ∨ b = 69 then
      match rest with
      | [] => none
      | s :: rest2 =>
        if s = 43 ∨ s = 45 then
          let ds := rest2.takeWhile isDigitB
          if ds = [] then none
          else some (b :: s :: ds, rest2.dropWhile isDigitB)
        else
          let ds := rest.takeWhile isDigitB
          if ds = [] then none
          else some (b :: ds, rest.dropWhile isDigitB)
    else some ([], b :: rest)

/-- Lex one JSON number after the optional minus sign. -/
def lexNumNat (input : Bytes) : Option (Bytes × Bytes) :=
  match lexInt input with
  | none => none
  | some (ip, r1) =>
    match lexFracOpt r1 with
    | none => none
    | some (fp, r2) =>
      match lexExpOpt r2 with
      | none => none
      | some (ep, r3) => some (ip ++ fp ++ ep, r3)

/-- Lex a JSON number (grammar `-? int frac? exp?`) without interpreting
it; malformed numbers fail, as `JSON.parse` throws on them. -/
def lexNum (input : Bytes) : Option (Bytes × Bytes) :=
  match input with
  | 45 :: rest => (lexNumNat rest).map (fun p => (45 :: p.1, p.2))
  | l => lexNumNat l

mutual

/-- Recursive-descent JSON value parser with an explicit fuel bound on the
recursion (any fuel beyond the document's structural size is enough). -/
def parseVal : Nat → Bytes → Option (Json × Bytes)
  | 0, _ => none
  | f + 1, input =>
    match skipWs input with
    | [] => none
    | c :: rest =>
      if c = 34 then (parseStr rest).map (fun p => (Json.str p.1, p.2))
      else if c = 123 then
        match skipWs rest with
        | 125 :: r => some (Json.obj [], r)
        | rest2 => (parseMembers f rest2).map (fun p => (Json.obj p.1, p.2))
      else if c = 91 then
        match skipWs rest with
        | 93 :: r => some (Json.arr [], r)
        | rest2 => (parseElems f rest2).map (fun p => (Json.arr p.1, p.2))
      else if c = 116 then
        match rest with
        | 114 :: 117 :: 101 :: r => some (Json.bool true, r)
        | _ => none
      else if c = 102 then
        match rest with
        | 97 :: 108 :: 115 :: 101 :: r => some (Json.bool false, r)
        | _ => none
      else if c = 110 then
        match rest with
        | 117 :: 108 :: 108 :: r => some (Json.null, r)
        | _ => none
      else if (48 ≤ c && c ≤ 57) || c == 45 then
        (lexNum (c :: rest)).map (fun p => (Json.num p.1, p.2))
      else none

/-- Parse the members of a non-empty object after its opening brace. -/
def parseMembers : Nat → Bytes → Option (List (Bytes × Json) × Bytes)
  | 0, _ => none
  | f + 1, input =>
    match skipWs input with
    | 34 :: rest =>
      match parseStr rest with
      | none => none
      | some (name, r1) =>
        match skipWs r1 with
        | 58 :: r2 =>
          match parseVal f r2 with
          | none => none
          | some (v, r3) =>
            match skipWs r3 with
            | 44 :: r4 => (parseMembers f r4).map (fun p => ((name, v) :: p.1, p.2))
            | 125 :: r4 => some ([(name, v)], r4)
            | _ => none
        | _ => none
    | _ => none

/-- Parse the elements of a non-empty array after its opening bracket. -/
def parseElems : Nat → Bytes → Option (List Json × Bytes)
  | 0, _ => none
  | f + 1, input =>
    match parseVal f input with
    | none => none
    | some (v, r1) =>
      match skipWs r1 with
      | 44 :: r2 => (parseElems f r2).map (fun p => (v :: p.1, p.2))
      | 93 :: r2 => some ([v], r2)
      | _ => none

end

/-- `JSON.parse` of a byte text: one value, then only trailing whitespace.
The fuel `length + 1` dominates every possible nesting of the input. -/
def jsonParseFull (input : Bytes) : Option Json :=
  match parseVal (input.length + 1) input with
  | some (j, rest) => if skipWs rest = [] then some j else none
  | none => none

/-- The base64 alphabet. -/
def b64Alphabet : List Char :=
  "ABCDEFGHIJKLMNOPQRSTUVWXYZabcdefghijklmnopqrstuvwxyz0123456789+/".data

/-- Alphabet character of a 6-bit value. -/
def b64Char (n : Nat) : Char := b64Alphabet.getD n 'A'

/-- 6-bit value of an alphabet character. -/
def b64Val (c : Char) : Nat := b64Alphabet.indexOf c

/-- Membership in the base64 alphabet (padding excluded). -/
def isB64Char (c : Char) : Bool := b64Alphabet.contains c

/-- Standard base64 encoding of a byte string, with `=` padding, as
`Buffer.toString('base64')` produces it. -/
def encodeB64 : Bytes → List Char
  | [] => []
  | [a] => [b64Char (a / 4), b64Char (a % 4 * 16), '=', '=']
  | [a, b] => [b64Char (a / 4), b64Char (a % 4 * 16 + b / 16), b64Char (b % 16 * 4), '=']
  | a :: b :: c :: rest =>
      b64Char (a / 4) :: b64Char (a % 4 * 16 + b / 16) ::
      b64Char (b % 16 * 4 + c / 64) :: b64Char (c % 64) :: encodeB64 rest

/-- Regroup 6-bit values into bytes; trailing groups of two or three
values yield one or two bytes. -/
def decode4 : Bytes → Bytes
  | a :: b :: c :: d :: rest =>
      (a * 4 + b / 16) :: (b % 16 * 16 + c / 4) :: (c % 4 * 64 + d) :: decode4 rest
  | [a, b] => [a * 4 + b / 16]
  | [a, b, c] => [a * 4 + b / 16, b % 16 * 16 + c / 4]
  | _ => []

/-- `Buffer.from(text, 'base64')`: Node's lenient decoder ignores every
character outside the alphabet (including padding) and regroups the rest. -/
def decodeB64 (s : List Char) : Bytes :=
  decode4 ((s.filter isB64Char).map b64Val)

/-- The continuation-token encoder: serialize, then base64
(src/unnamed/part_000 line 110). -/
def encodeToken (k : Lekey) : String :=
  String.mk (encodeB64 (stringifyLekey k))

/-- The continuation-token decoder of line 97: base64-decode, then
`JSON.parse`; every failure is caught, leaving no resume position. -/
def decodeToken (t : String) : Option Json :=
  jsonParseFull (decodeB64 t.data)

/-- The `nextToken` the search response carries (line 110 in full): the
serialized key is first base64-*decoded* (`Buffer.from(text, 'base64')`,
reading the JSON text's characters as lenient base64) and utf8-rendered as
a truthiness guard, then re-encoded properly.  The decoded buffer is empty
— so the guard renders the empty string, which is falsy and becomes the
whole expression — exactly when the text holds at most one base64-alphabet
character; a non-empty buffer renders as non-empty (if garbled) text,
which is truthy, selecting the real token. -/
def nextTokenOfLek (k : Lekey) : String :=
  if decodeB64 ((stringifyLekey k).map (fun b => Char.ofNat b)) = [] then ""
  else encodeToken k

/-! ## src/unnamed/part_000 — the GET /leads-search query router -/

/-- Digit-string value. -/
def digitsVal (l : List Char) : Nat :=
  l.foldl (fun acc c => acc * 10 + (c.toNat - 48)) 0

/-- `parseInt(s, 10)`: skip surrounding whitespace, an optional `-` or
`+` sign, then a maximal run of decimal digits; no digits means NaN
(`none`). -/
def parseIntJs (s : String) : Option Int :=
  match (jsTrim s).data with
  | '-' :: rest =>
    let ds := rest.takeWhile Char.isDigit
    if ds = [] then none else some (-(digitsVal ds : Int))
  | '+' :: rest =>
    let ds := rest.takeWhile Char.isDigit
    if ds = [] then none else some (digitsVal ds)
  | l =>
    let ds := l.takeWhile Char.isDigit
    if ds = [] then none else some (digitsVal ds)

/-- `Math.min(parseInt(limitParam || '50', 10) || 50, 200)` (line 38):
NaN and 0 both fall back to 50 before the cap. -/
def limitOf (lp : Option String) : Int :=
  min (match parseIntJs (orStr lp "50") with
       | some n => if n = 0 then 50 else n
       | none => 50) 200

/-- The query a request resolves to, as handed to DynamoDB, with the
expression attribute names and values in the order the source inserts
them. -/
structure QueryParams where
  tableName : String
  indexName : String
  keyCond : String
  exprNames : List (String × String)
  exprValues : List (String × String)
  limit : Int
  filterExpr : Option String
  exclusiveStartKey : Option Json

/-- How far a search request gets: every constructor before `doQuery` is a
response produced without touching DynamoDB. -/
inductive SearchOutcome where
  | noContent204
  | methodNotAllowed
  | unauthorized
  | notConfigured500
  | badRequest400
  | doQuery (p : QueryParams)

/-- HTTP status of a non-query outcome (`json(res, status, ...)` calls). -/
def searchStatusCode : SearchOutcome → Nat
  | .noContent204 => 204
  | .methodNotAllowed => 405
  | .unauthorized => 401
  | .notConfigured500 => 500
  | .badRequest400 => 400
  | .doQuery _ => 200

/-- Environment configuration of the search endpoint. -/
structure SearchEnv where
  adminToken : Option String
  region : Option String
  ddbTable : Option String
  sdk : Bool

/-- The request inputs the handler reads: `keyQ` is the `key` query
parameter, `keyH` the `x-admin-key` header, the rest the filter inputs. -/
structure SearchReq where
  keyQ : Option String
  keyH : Option String
  status : Option String
  email : Option String
  utm : Option String
  fromP : Option String
  toP : Option String
  limitP : Option String
  nextTokenP : Option String

/-- `url.searchParams.get('key') || req.headers['x-admin-key']`: an empty
query value falls through to the header. -/
def effKey (keyQ keyH : Option String) : Option String :=
  match keyQ with
  | some s => if s = "" then keyH else some s
  | none => keyH

/-- `ExclusiveStartKey` seeding (lines 96-98): a null or empty token sets
nothing, and a decode failure is caught, also setting nothing. -/
def eskOf (tok : Option String) : Option Json :=
  match tok with
  | some t => if t = "" then none else decodeToken t
  | none => none

/-- The search handler of src/unnamed/part_000 lines 12-98, up to the
point where the query is issued. -/
def searchHandler (method : String) (env : SearchEnv) (q : SearchReq) : SearchOutcome :=
  if method = "OPTIONS" then .noContent204
  else if method ≠ "GET" then .methodNotAllowed
  else
    match env.adminToken with
    | none => .unauthorized
    | some tok =>
      if tok = "" then .unauthorized
      else if effKey q.keyQ q.keyH ≠ some tok then .unauthorized
      else
        let table := orStr env.ddbTable "StripeProtectionLeads"
        if ¬ truthyS env.region ∨ table = "" ∨ ¬ env.sdk then .notConfigured500
        else
          let status := jsTrim (orStr q.status "")
          let email := jsTrim (orStr q.email "")
          let utm := jsTrim (orStr q.utm "")
          let dFrom := orStr (some (jsTrim (orStr q.fromP ""))) "0000-01-01T00:00:00.000Z"
          let dTo := orStr (some (jsTrim (orStr q.toP ""))) "9999-12-31T23:59:59.999Z"
          let lim := limitOf q.limitP
          let esk := eskOf q.nextTokenP
          if email ≠ "" then
            let parts := (if status ≠ "" then ["#S = :s"] else [])
              ++ (if utm ≠ "" then ["#U = :u"] else [])
            .doQuery
              { tableName := table, indexName := "byEmail"
                keyCond := "#E = :e AND #R BETWEEN :from AND :to"
                exprNames := [("#E", "email"), ("#R", "received_at")]
                  ++ (if status ≠ "" then [("#S", "status")] else [])
                  ++ (if utm ≠ "" then [("#U", "utm_source")] else [])
                exprValues := [(":e", email), (":from", dFrom), (":to", dTo)]
                  ++ (if status ≠ "" then [(":s", status)] else [])
                  ++ (if utm ≠ "" then [(":u", utm)] else [])
                limit := lim
                filterExpr := if parts = [] then none
                  else some (String.intercalate " AND " parts)
                exclusiveStartKey := esk }
          else if status ≠ "" then
            let parts := (if utm ≠ "" then ["#U = :u"] else [])
              ++ (if email ≠ "" then ["#E = :e"] else [])
            .doQuery
              { tableName := table, indexName := "byStatusDate"
                keyCond := "#S = :s AND #R BETWEEN :from AND :to"
                exprNames := [("#S", "status"), ("#R", "received_at")]
                  ++ (if utm ≠ "" then [("#U", "utm_source")] else [])
                  ++ (if email ≠ "" then [("#E", "email")] else [])
                exprValues := [(":s", status), (":from", dFrom), (":to", dTo)]
                  ++ (if utm ≠ "" then [(":u", utm)] else [])
                  ++ (if email ≠ "" then [(":e", email)] else [])
                limit := lim
                filterExpr := if parts = [] then none
                  else some (String.intercalate " AND " parts)
                exclusiveStartKey := esk }
          else if utm ≠ "" then
            let parts := (if status ≠ "" then ["#S = :s"] else [])
            .doQuery
              { tableName := table, indexName := "byUtmSource"
                keyCond := "#U = :u AND #R BETWEEN :from AND :to"
                exprNames := [("#U", "utm_source"), ("#R", "received_at")]
                  ++ (if status ≠ "" then [("#S", "status")] else [])
                exprValues := [(":u", utm), (":from", dFrom), (":to", dTo)]
                  ++ (if status ≠ "" then [(":s", status)] else [])
                limit := lim
                filterExpr := if parts = [] then none
                  else some (String.intercalate " AND " parts)
                exclusiveStartKey := esk }
          else .badRequest400

/-- A DynamoDB attribute value as the query can return it: string, number
(numbers travel as digit strings), boolean, null, binary, or one of the
container/set kinds.  The projection of line 104 reads only the `S`, `N`
and `BOOL` tags, so the payloads of the remaining kinds are never
observed and are omitted from the model. -/
inductive AttrVal where
  | S (s : String)
  | N (s : String)
  | BOOL (b : Bool)
  | NULL
  | B (b64 : String)
  | M
  | L
  | SS
  | NS
  | BS

/-- `v.S || v.N || v.BOOL || null` (line 104): the first *truthy* tag wins,
so an empty string or a false boolean falls through, and every attribute
kind without one of the three tags lands on `null`. -/
def projectAttr : AttrVal → JVal
  | .S s => if s = "" then .null else .str s
  | .N s => if s = "" then .null else .str s
  | .BOOL b => if b then .bool true else .null
  | _ => .null

/-- Flatten one raw item into the response record (lines 102-106). -/
def projectItem (i : List (String × AttrVal)) : List (String × JVal) :=
  i.map (fun p => (p.1, projectAttr p.2))

/-- What the DynamoDB query returned. -/
structure QueryResult where
  items : List (List (String × AttrVal))
  count : Nat
  lastEvaluatedKey : Option Lekey

/-- The 200 payload of lines 107-112. -/
structure SearchResp where
  count : Nat
  items : List (List (String × JVal))
  nextToken : Option String

/-- Build the 200 response from a query result; `nextToken` is null
exactly when no `LastEvaluatedKey` came back. -/
def searchResponseOf (r : QueryResult) : SearchResp :=
  { count := r.count
    items := r.items.map projectItem
    nextToken := (r.lastEvaluatedKey).map nextTokenOfLek }

/-! ## src/unnamed/part_001 — the GET /leads-list endpoint -/

/-- How far a list request gets; `doList` carries the S3 listing actually
issued (bucket, key namespace path, page size), every other constructor is
a response produced without touching S3.  `notConfiguredOk` is the 200
`\x7b items: [], note \x7d` soft fallback of line 38. -/
inductive ListOutcome where
  | noContent204
  | methodNotAllowed
  | unauthorized
  | notConfiguredOk (note : String)
  | doList (bucket : String) (path : String) (maxKeys : Nat)

/-- HTTP status of a non-listing outcome. -/
def listStatusCode : ListOutcome → Nat
  | .noContent204 => 204
  | .methodNotAllowed => 405
  | .unauthorized => 401
  | .notConfiguredOk _ => 200
  | .doList _ _ _ => 200

/-- Environment configuration of the list endpoint. -/
structure ListEnv where
  adminToken : Option String
  bucket : Option String
  region : Option String
  keyPre : Option String
  sdk : Bool

/-- The list handler of src/unnamed/part_001 lines 18-50, up to the S3
listing it issues. -/
def listHandler (method : String) (env : ListEnv)
    (keyQ keyH statusP _limitP : Option String) : ListOutcome :=
  if method = "OPTIONS" then .noContent204
  else if method ≠ "GET" then .methodNotAllowed
  else
    match env.adminToken with
    | none => .unauthorized
    | some tok =>
      if tok = "" then .unauthorized
      else if effKey keyQ keyH ≠ some tok then .unauthorized
      else if ¬ truthyS env.bucket ∨ ¬ truthyS env.region ∨ ¬ env.sdk then
        .notConfiguredOk "S3 not configured"
      else
        let statusL := jsToLower (orStr statusP "final")
        .doList ((env.bucket).getD "") (orStr env.keyPre "leads" ++ "/" ++ statusL ++ "/") 1000

/-! ## Claim-side definitions

Two definitions below transcribe claim text rather than source code, to be
compared with the source-derived definitions above. -/

/-- The index-selection rule exactly as the spec states it: a pure function
of which of the three (already trimmed) filter values are non-empty, with
the fixed precedence email, then status, then utm_source. -/
def selectIndex (email status utm : String) : Option String :=
  if email ≠ "" then some "byEmail"
  else if status ≠ "" then some "byStatusDate"
  else if utm ≠ "" then some "byUtmSource"
  else none

/-- The storage key as the spec describes it, with *every* segment
slugified — including the key namespace, the date and the trailing id —
for comparison with the source's `mkStorageKey`, which slugifies only the
status, source, utm and industry segments. -/
def claimSluggedKey (pre sv nowIso : String) (payload : JObj) (docIdStr : String) : String :=
  slugStr pre ++ "/" ++ slugOrDefault (some (.str sv)) "final" ++ "/"
    ++ slugStr (String.mk (nowIso.data.take 10)) ++
    "/source=" ++ slugOrDefault (keySource payload) "web" ++
    "/utm=" ++ slugOrDefault (keyUtm payload) "direct" ++
    "/industry=" ++ slugOrDefault (keyIndustry payload) "na" ++
    "/" ++ slugStr docIdStr ++ ".json"

/-- A fully configured ingestion environment used by the concrete
instantiations below. -/
def envAll : SubmitEnv :=
  { bucket := some "b", region := some "r", keyPre := none, s3Sdk := true,
    ddbTable := some "T", ddbRegion := none, ddbSdk := true,
    sesTo := some "to", sesFrom := some "from", sesRegion := none, sesSdk := true }

/-! ## Lookup lemmas -/

theorem alook_append {α : Type} (l1 l2 : List (String × α)) (k : String) :
    alook (l1 ++ l2) k = (alook l1 k).or (alook l2 k) := by
  induction l1 with
  | nil => simp [alook]
  | cons p t ih =>
    by_cases h : p.1 = k <;> simp [alook, h, ih]

theorem alook_map_getD (a b : JObj) (k : String) :
    alook (a.map (fun p => (p.1, (alook b p.1).getD p.2))) k =
      (alook a k).map (fun v => (alook b k).getD v) := by
  induction a with
  | nil => simp [alook]
  | cons p t ih =>
    by_cases h : p.1 = k
    · subst h
      simp [alook]
    · simp [alook, h, ih]

theorem alook_filter_keyPred {α : Type} (b : List (String × α)) (q : String → Bool) (k : String)
    (hq : q k = true) :
    alook (b.filter (fun p => q p.1)) k = alook b k := by
  induction b with
  | nil => simp [alook]
  | cons p t ih =>
    by_cases h : p.1 = k
    · subst h
      simp [alook, hq]
    · by_cases hp : q p.1 <;> simp [alook, h, hp, ih]

theorem spreadMerge_alook (a b : JObj) (k : String) :
    alook (spreadMerge a b) k = (alook b k).or (alook a k) := by
  unfold spreadMerge
  rw [alook_append, alook_map_getD]
  cases ha : alook a k with
  | some w =>
    cases hb : alook b k <;> simp [ha, hb]
  | none =>
    rw [alook_filter_keyPred b (fun s => (alook a s).isNone) k (by simp [ha])]
    cases hb : alook b k <;> simp [ha, hb]

theorem buildDoc_alook (payload : JObj) (fresh nowIso ip ua : String) (k : String) :
    alook (buildDoc payload fresh nowIso ip ua) k =
      (alook payload k).or
        (alook [("id", JVal.str ((clientId payload).getD fresh)),
                ("status", JVal.str (statusVar payload)),
                ("received_at", JVal.str nowIso),
                ("ip", JVal.str ip),
                ("user_agent", JVal.str ua)] k) := by
  unfold buildDoc
  exact spreadMerge_alook _ payload k

theorem docVal_status (payload : JObj) (fresh nowIso ip ua : String) :
    docVal (buildDoc payload fresh nowIso ip ua) "status" =
      (match alook payload "status" with
       | some v => v
       | none => JVal.str "final") := by
  unfold docVal
  rw [buildDoc_alook]
  cases h : alook payload "status" with
  | some v => simp [alook]
  | none =>
    have : statusVar payload = "final" := by
      unfold statusVar
      rw [h]
    simp [alook, this]

theorem docVal_id (payload : JObj) (fresh nowIso ip ua : String) :
    docVal (buildDoc payload fresh nowIso ip ua) "id" =
      (match alook payload "id" with
       | some v => v
       | none => JVal.str fresh) := by
  unfold docVal
  rw [buildDoc_alook]
  cases h : alook payload "id" with
  | some v => simp [alook]
  | none =>
    have : clientId payload = none := by
      unfold clientId
      rw [h]
    simp [alook, this]

theorem docVal_received_at (payload : JObj) (fresh nowIso ip ua : String) :
    docVal (buildDoc payload fresh nowIso ip ua) "received_at" =
      (match alook payload "received_at" with
       | some v => v
       | none => JVal.str nowIso) := by
  unfold docVal
  rw [buildDoc_alook]
  cases h : alook payload "received_at" with
  | some v => simp [alook]
  | none => simp [alook]

/-! ## UUID format lemmas -/

theorem hexCharOf_isHexD : ∀ n, n < 16 → isHexD (hexCharOf n) = true := by decide

theorem hexCharOf_variant : ∀ m, m < 4 →
    (hexCharOf (m + 8) == '8' || hexCharOf (m + 8) == '9' ||
     hexCharOf (m + 8) == 'a' || hexCharOf (m + 8) == 'b') = true := by decide

theorem isUuidV4_genUuid (rnd : Nat → Nat) : isUuidV4 (genUuid rnd) = true := by
  have hx : ∀ i, isHexD (hexCharOf (rnd i % 16)) = true := fun i =>
    hexCharOf_isHexD _ (Nat.mod_lt _ (by decide))
  have hy : (hexCharOf (rnd 15 % 16 % 4 + 8) == '8' || hexCharOf (rnd 15 % 16 % 4 + 8) == '9' ||
      hexCharOf (rnd 15 % 16 % 4 + 8) == 'a' || hexCharOf (rnd 15 % 16 % 4 + 8) == 'b') = true :=
    hexCharOf_variant _ (Nat.mod_lt _ (by decide))
  have htempl : "xxxxxxxx-xxxx-4xxx-yxxx-xxxxxxxxxxxx".data =
      ['x','x','x','x','x','x','x','x','-','x','x','x','x','-','4','x','x','x','-',
       'y','x','x','x','-','x','x','x','x','x','x','x','x','x','x','x','x'] := rfl
  unfold genUuid
  rw [htempl]
  simp [genUuidGo, isUuidV4, hx, hy]

/-! ## Claim C2 — fixed-field collisions -/

/-- C2, counterexample: the claim says a caller-supplied `received_at`
never overwrites the server-assigned timestamp, but the payload spread
comes last in the document literal, so the caller's value wins. -/
theorem doc_fixed_field_overwritten_cex :
    alook (buildDoc [("received_at", JVal.str "bogus")] "f" "2024-01-02T03:04:05.678Z" "" "")
        "received_at" = some (JVal.str "bogus")
    ∧ JVal.str "bogus" ≠ JVal.str "2024-01-02T03:04:05.678Z" := by
  constructor
  · rfl
  · intro h
    injection h with h
    exact absurd h (by decide)

/-- C2, amended: on a key collision with any of the fixed fields
(id, status, received_at, ip, user_agent) the caller-supplied value
overwrites the server-assigned one in the built LeadDocument, because the
payload is spread last; only a supplied non-empty-string id coincides with
the server-assigned id by construction. -/
theorem payload_overrides_fixed_fields (payload : JObj) (fresh nowIso ip ua : String)
    (k : String) (v : JVal) (h : alook payload k = some v) :
    alook (buildDoc payload fresh nowIso ip ua) k = some v := by
  rw [buildDoc_alook, h]
  rfl

/-- C2 witness: instantiates the override theorem at a concrete payload
colliding on `received_at`. -/
theorem payload_overrides_fixed_fields_witness :
    alook (buildDoc [("received_at", JVal.str "bogus")] "f" "2024-01-02T03:04:05.678Z" "" "")
        "received_at" = some (JVal.str "bogus") :=
  payload_overrides_fixed_fields [("received_at", JVal.str "bogus")] "f"
    "2024-01-02T03:04:05.678Z" "" "" "received_at" (JVal.str "bogus") rfl

/-! ## Claim C5 — response status -/

/-- C5, counterexample: the claim says the response status is the
lower-cased supplied status, but the payload spread restores the
caller's original casing, so supplying "FINAL" echoes "FINAL". -/
theorem response_status_not_lowercased_cex :
    (submitPipeline [("status", JVal.str "FINAL")] "f" "2024-01-02T03:04:05.678Z"
        none none none envAll true).resp.status = JVal.str "FINAL"
    ∧ JVal.str "FINAL" ≠ JVal.str "final" := by
  constructor
  · rfl
  · intro h
    injection h with h
    exact absurd h (by decide)

/-- C5, amended: the response status equals the caller-supplied status
value verbatim — whatever its type or casing — whenever the body contains
a `status` key, and the string "final" when it is absent. -/
theorem response_status_verbatim (payload : JObj) (fresh nowIso : String)
    (xff remote uaHdr : Option String) (env : SubmitEnv) (s3Ok : Bool) :
    (submitPipeline payload fresh nowIso xff remote uaHdr env s3Ok).resp.status =
      (match alook payload "status" with
       | some v => v
       | none => JVal.str "final") := by
  have h := docVal_status payload fresh nowIso (ipOf xff remote) (orStr uaHdr "")
  simp only [submitPipeline]
  exact h

/-! ## Claim C6 — response id -/

/-- C6, counterexample: the claim says an empty supplied id is replaced by
a freshly generated version-4 identifier, but the payload spread puts the
empty string back into the document, so the response id is "" and is not
in UUID format. -/
theorem response_id_empty_string_cex :
    (submitPipeline [("id", JVal.str "")] "f" "2024-01-02T03:04:05.678Z"
        none none none envAll true).resp.id = JVal.str ""
    ∧ isUuidV4 "" = false := by
  exact ⟨rfl, rfl⟩

/-- C6, amended: with the generated identifier as the fresh id, the
response id is the caller's `id` value verbatim whenever the body has an
`id` key (so a non-empty string id is echoed, and an empty or non-string
id is passed through unchanged rather than replaced), and the freshly
generated identifier — used exactly when the key is absent — always has
syntactically valid version-4 UUID format. -/
theorem response_id_characterization (payload : JObj) (nowIso : String)
    (xff remote uaHdr : Option String) (env : SubmitEnv) (s3Ok : Bool) (rnd : Nat → Nat) :
    (submitPipeline payload (genUuid rnd) nowIso xff remote uaHdr env s3Ok).resp.id =
      (match alook payload "id" with
       | some v => v
       | none => JVal.str (genUuid rnd))
    ∧ isUuidV4 (genUuid rnd) = true := by
  constructor
  · have h := docVal_id payload (genUuid rnd) nowIso (ipOf xff remote) (orStr uaHdr "")
    simp only [submitPipeline]
    exact h
  · exact isUuidV4_genUuid rnd

/-! ## Claim C1 — storage failure keeps the 200 response -/

/-- C1: when the storage sink is configured and the write raises, the
handler still answers HTTP 200 with `ok: true`, reports the failure as
`stored = "error"` with an empty `key`, and that empty key is what the
index record's `s3_key` and the notification stage observe (the
notification renders it through its `(none)` fallback). -/
theorem submit_storage_failure_response (payload : JObj) (fresh nowIso : String)
    (xff remote uaHdr : Option String) (env : SubmitEnv)
    (hb : truthyS env.bucket = true) (hr : truthyS env.region = true)
    (hs : env.s3Sdk = true) :
    (∀ anyOutcome : Bool,
        (submitPipeline payload fresh nowIso xff remote uaHdr env anyOutcome).resp.httpStatus = 200
        ∧ (submitPipeline payload fresh nowIso xff remote uaHdr env anyOutcome).resp.ok = true)
    ∧ (submitPipeline payload fresh nowIso xff remote uaHdr env false).resp.stored = "error"
    ∧ (submitPipeline payload fresh nowIso xff remote uaHdr env false).resp.key = ""
    ∧ (∀ it, (submitPipeline payload fresh nowIso xff remote uaHdr env false).indexWrite = some it →
        alook it "s3_key" = some (DdbAttr.S (JVal.str "")))
    ∧ (∀ n, (submitPipeline payload fresh nowIso xff remote uaHdr env false).notif = some n →
        n.key = "" ∧ notifKeyLine n = "Key: (none)") := by
  refine ⟨?_, ?_, ?_, ?_, ?_⟩
  · intro anyOutcome
    exact ⟨by simp [submitPipeline], by simp [submitPipeline]⟩
  · simp [submitPipeline, hb, hr, hs]
  · simp [submitPipeline, hb, hr, hs]
  · intro it hit
    simp [submitPipeline, hb, hr, hs] at hit
    rcases hit with ⟨hcfg, hit⟩
    subst hit
    simp [ddbItemOf, alook]
  · intro n hn
    simp [submitPipeline, hb, hr, hs] at hn
    rcases hn with ⟨hcfg, hn⟩
    subst hn
    constructor
    · rfl
    · rfl

/-- C1 witness: the failure theorem at a concrete payload and a fully
configured environment, where the index write and the notification both
happen. -/
theorem submit_storage_failure_response_witness :
    (∀ anyOutcome : Bool,
        (submitPipeline [] "f" "2024-01-02T03:04:05.678Z" none none none envAll anyOutcome).resp.httpStatus = 200
        ∧ (submitPipeline [] "f" "2024-01-02T03:04:05.678Z" none none none envAll anyOutcome).resp.ok = true)
    ∧ (submitPipeline [] "f" "2024-01-02T03:04:05.678Z" none none none envAll false).resp.stored = "error"
    ∧ (submitPipeline [] "f" "2024-01-02T03:04:05.678Z" none none none envAll false).resp.key = ""
    ∧ (∀ it, (submitPipeline [] "f" "2024-01-02T03:04:05.678Z" none none none envAll false).indexWrite = some it →
        alook it "s3_key" = some (DdbAttr.S (JVal.str "")))
    ∧ (∀ n, (submitPipeline [] "f" "2024-01-02T03:04:05.678Z" none none none envAll false).notif = some n →
        n.key = "" ∧ notifKeyLine n = "Key: (none)") :=
  submit_storage_failure_response [] "f" "2024-01-02T03:04:05.678Z" none none none envAll
    rfl rfl rfl

/-! ## Claim C10 — endpoints fail closed without an admin secret -/

/-- C10: with no configured admin secret, both the search endpoint and the
list endpoint answer 401 for every GET request — whatever key the caller
supplies, including none — and neither issues a read against its backing
store. -/
theorem admin_token_unset_fail_closed (envS : SearchEnv) (envL : ListEnv)
    (q : SearchReq) (keyQ keyH statusP limitP : Option String) :
    searchHandler "GET" { envS with adminToken := none } q = SearchOutcome.unauthorized
    ∧ searchStatusCode (searchHandler "GET" { envS with adminToken := none } q) = 401
    ∧ (∀ p, searchHandler "GET" { envS with adminToken := none } q ≠ SearchOutcome.doQuery p)
    ∧ listHandler "GET" { envL with adminToken := none } keyQ keyH statusP limitP
        = ListOutcome.unauthorized
    ∧ listStatusCode (listHandler "GET" { envL with adminToken := none } keyQ keyH statusP limitP)
        = 401
    ∧ (∀ b pa mk, listHandler "GET" { envL with adminToken := none } keyQ keyH statusP limitP
        ≠ ListOutcome.doList b pa mk) := by
  have hs : searchHandler "GET" { envS with adminToken := none } q
      = SearchOutcome.unauthorized := by
    simp [searchHandler]
  have hl : listHandler "GET" { envL with adminToken := none } keyQ keyH statusP limitP
      = ListOutcome.unauthorized := by
    simp [listHandler]
  refine ⟨hs, ?_, ?_, hl, ?_, ?_⟩
  · rw [hs]
    rfl
  · intro p
    rw [hs]
    intro h
    cases h
  · rw [hl]
    rfl
  · intro b pa mk
    rw [hl]
    intro h
    cases h

/-! ## Claim C3 — index selection precedence -/

/-- C3, counterexample: an authorized request with no filters against an
environment without a configured region answers 500, not the 400
validation error the claim promises for every authorized filterless
request; the claim holds only once DynamoDB is configured. -/
theorem search_unconfigured_not_400_cex :
    searchHandler "GET"
        { adminToken := some "t", region := none, ddbTable := some "T", sdk := true }
        { keyQ := some "t", keyH := none, status := none, email := none, utm := none,
          fromP := none, toP := none, limitP := none, nextTokenP := none }
      = SearchOutcome.notConfigured500
    ∧ SearchOutcome.notConfigured500 ≠ SearchOutcome.badRequest400
    ∧ searchStatusCode SearchOutcome.notConfigured500 = 500 := by
  refine ⟨?_, ?_, rfl⟩
  · rfl
  · intro h
    cases h

/-- C3, amended: for every authorized GET against a configured DynamoDB
backend, the selected index is the pure function `selectIndex` of which of
the trimmed email, status and utm_source parameters are non-empty, with
email before status before utm_source; when all three are empty the
handler answers the 400 validation error and issues no query. -/
theorem search_index_selection (env : SearchEnv) (q : SearchReq) (tok : String)
    (ha : env.adminToken = some tok) (ht : tok ≠ "")
    (hk : effKey q.keyQ q.keyH = some tok)
    (hr : truthyS env.region = true) (hsdk : env.sdk = true) :
    (∀ p, searchHandler "GET" env q = SearchOutcome.doQuery p →
        selectIndex (jsTrim (orStr q.email "")) (jsTrim (orStr q.status "")) (jsTrim (orStr q.utm ""))
          = some p.indexName)
    ∧ (∀ i, selectIndex (jsTrim (orStr q.email "")) (jsTrim (orStr q.status "")) (jsTrim (orStr q.utm ""))
          = some i →
        ∃ p, searchHandler "GET" env q = SearchOutcome.doQuery p ∧ p.indexName = i)
    ∧ (selectIndex (jsTrim (orStr q.email "")) (jsTrim (orStr q.status "")) (jsTrim (orStr q.utm ""))
          = none →
        searchHandler "GET" env q = SearchOutcome.badRequest400
        ∧ searchStatusCode (searchHandler "GET" env q) = 400
        ∧ ∀ p, searchHandler "GET" env q ≠ SearchOutcome.doQuery p) := by
  have htab : orStr env.ddbTable "StripeProtectionLeads" ≠ "" := by
    unfold orStr
    cases h : env.ddbTable with
    | none => decide
    | some s =>
      by_cases hse : s = "" <;> simp [hse]
  have hrun : searchHandler "GET" env q =
      (if jsTrim (orStr q.email "") ≠ "" then SearchOutcome.doQuery
          { tableName := orStr env.ddbTable "StripeProtectionLeads", indexName := "byEmail"
            keyCond := "#E = :e AND #R BETWEEN :from AND :to"
            exprNames := [("#E", "email"), ("#R", "received_at")]
              ++ (if jsTrim (orStr q.status "") ≠ "" then [("#S", "status")] else [])
              ++ (if jsTrim (orStr q.utm "") ≠ "" then [("#U", "utm_source")] else [])
            exprValues := [(":e", jsTrim (orStr q.email "")),
                (":from", orStr (some (jsTrim (orStr q.fromP ""))) "0000-01-01T00:00:00.000Z"),
                (":to", orStr (some (jsTrim (orStr q.toP ""))) "9999-12-31T23:59:59.999Z")]
              ++ (if jsTrim (orStr q.status "") ≠ "" then [(":s", jsTrim (orStr q.status ""))] else [])
              ++ (if jsTrim (orStr q.utm "") ≠ "" then [(":u", jsTrim (orStr q.utm ""))] else [])
            limit := limitOf q.limitP
            filterExpr := if ((if jsTrim (orStr q.status "") ≠ "" then ["#S = :s"] else [])
                ++ (if jsTrim (orStr q.utm "") ≠ "" then ["#U = :u"] else [])) = [] then none
              else some (String.intercalate " AND "
                ((if jsTrim (orStr q.status "") ≠ "" then ["#S = :s"] else [])
                  ++ (if jsTrim (orStr q.utm "") ≠ "" then ["#U = :u"] else [])))
            exclusiveStartKey := eskOf q.nextTokenP }
        else if jsTrim (orStr q.status "") ≠ "" then SearchOutcome.doQuery
          { tableName := orStr env.ddbTable "StripeProtectionLeads", indexName := "byStatusDate"
            keyCond := "#S = :s AND #R BETWEEN :from AND :to"
            exprNames := [("#S", "status"), ("#R", "received_at")]
              ++ (if jsTrim (orStr q.utm "") ≠ "" then [("#U", "utm_source")] else [])
              ++ (if jsTrim (orStr q.email "") ≠ "" then [("#E", "email")] else [])
            exprValues := [(":s", jsTrim (orStr q.status "")),
                (":from", orStr (some (jsTrim (orStr q.fromP ""))) "0000-01-01T00:00:00.000Z"),
                (":to", orStr (some (jsTrim (orStr q.toP ""))) "9999-12-31T23:59:59.999Z")]
              ++ (if jsTrim (orStr q.utm "") ≠ "" then [(":u", jsTrim (orStr q.utm ""))] else [])
              ++ (if jsTrim (orStr q.email "") ≠ "" then [(":e", jsTrim (orStr q.email ""))] else [])
            limit := limitOf q.limitP
            filterExpr := if ((if jsTrim (orStr q.utm "") ≠ "" then ["#U = :u"] else [])
                ++ (if jsTrim (orStr q.email "") ≠ "" then ["#E = :e"] else [])) = [] then none
              else some (String.intercalate " AND "
                ((if jsTrim (orStr q.utm "") ≠ "" then ["#U = :u"] else [])
                  ++ (if jsTrim (orStr q.email "") ≠ "" then ["#E = :e"] else [])))
            exclusiveStartKey := eskOf q.nextTokenP }
        else if jsTrim (orStr q.utm "") ≠ "" then SearchOutcome.doQuery
          { tableName := orStr env.ddbTable "StripeProtectionLeads", indexName := "byUtmSource"
            keyCond := "#U = :u AND #R BETWEEN :from AND :to"
            exprNames := [("#U", "utm_source"), ("#R", "received_at")]
              ++ (if jsTrim (orStr q.status "") ≠ "" then [("#S", "status")] else [])
            exprValues := [(":u", jsTrim (orStr q.utm "")),
                (":from", orStr (some (jsTrim (orStr q.fromP ""))) "0000-01-01T00:00:00.000Z"),
                (":to", orStr (some (jsTrim (orStr q.toP ""))) "9999-12-31T23:59:59.999Z")]
              ++ (if jsTrim (orStr q.status "") ≠ "" then [(":s", jsTrim (orStr q.status ""))] else [])
            limit := limitOf q.limitP
            filterExpr := if ((if jsTrim (orStr q.status "") ≠ "" then ["#S = :s"] else [])) = []
              then none
              else some (String.intercalate " AND "
                ((if jsTrim (orStr q.status "") ≠ "" then ["#S = :s"] else [])))
            exclusiveStartKey := eskOf q.nextTokenP }
        else SearchOutcome.badRequest400) := by
    simp only [searchHandler, ha]
    simp [ht, hk, hr, hsdk, htab]
  by_cases he : jsTrim (orStr q.email "") = ""
  · by_cases hst : jsTrim (orStr q.status "") = ""
    · by_cases hu : jsTrim (orStr q.utm "") = ""
      · refine ⟨?_, ?_, ?_⟩
        · intro p hp
          rw [hrun] at hp
          simp [he, hst, hu] at hp
        · intro i hi
          simp [selectIndex, he, hst, hu] at hi
        · intro hnone
          have hb : searchHandler "GET" env q = SearchOutcome.badRequest400 := by
            rw [hrun]
            simp [he, hst, hu]
          refine ⟨hb, ?_, ?_⟩
          · rw [hb]
            rfl
          · intro p
            rw [hb]
            intro h
            cases h
      · refine ⟨?_, ?_, ?_⟩
        · intro p hp
          rw [hrun] at hp
          simp [he, hst, hu] at hp
          rw [← hp]
          simp [selectIndex, he, hst, hu]
        · intro i hi
          simp [selectIndex, he, hst, hu] at hi
          subst hi
          simp [he, hst, hu] at hrun
          exact ⟨_, hrun, rfl⟩
        · intro hnone
          simp [selectIndex, he, hst, hu] at hnone
    · refine ⟨?_, ?_, ?_⟩
      · intro p hp
        rw [hrun] at hp
        simp [he, hst] at hp
        rw [← hp]
        simp [selectIndex, he, hst]
      · intro i hi
        simp [selectIndex, he, hst] at hi
        subst hi
        simp [he, hst] at hrun
        exact ⟨_, hrun, rfl⟩
      · intro hnone
        simp [selectIndex, he, hst] at hnone
  · refine ⟨?_, ?_, ?_⟩
    · intro p hp
      rw [hrun] at hp
      simp [he] at hp
      rw [← hp]
      simp [selectIndex, he]
    · intro i hi
      simp [selectIndex, he] at hi
      subst hi
      simp [he] at hrun
      exact ⟨_, hrun, rfl⟩
    · intro hnone
      simp [selectIndex, he] at hnone

/-- C3 witness: the selection theorem at a concrete authorized,
configured request filtering on status only, which resolves to the
status-ordered index. -/
theorem search_index_selection_witness :
    ∃ p, searchHandler "GET"
        { adminToken := some "t", region := some "r", ddbTable := none, sdk := true }
        { keyQ := some "t", keyH := none, status := some "final", email := none, utm := none,
          fromP := none, toP := none, limitP := none, nextTokenP := none }
      = SearchOutcome.doQuery p ∧ p.indexName = "byStatusDate" :=
  (search_index_selection
      { adminToken := some "t", region := some "r", ddbTable := none, sdk := true }
      { keyQ := some "t", keyH := none, status := some "final", email := none, utm := none,
        fromP := none, toP := none, limitP := none, nextTokenP := none }
      "t" rfl (by decide) rfl rfl rfl).2.1 "byStatusDate" (by decide)

/-! ## Claim C7 — storage key derivation -/

/-- C7, counterexample: the claim slugifies every segment of the key, but
the source interpolates the document id verbatim, so a supplied id "ABC"
lands upper-case in the key while the claimed form lower-cases it. -/
theorem storage_key_id_not_slugged_cex :
    (submitPipeline [("id", JVal.str "ABC")] "f" "2024-01-02T03:04:05.678Z"
        none none none envAll true).resp.key
      = "leads/final/2024-01-02/source=web/utm=direct/industry=na/ABC.json"
    ∧ claimSluggedKey "leads" (statusVar [("id", JVal.str "ABC")])
        "2024-01-02T03:04:05.678Z" [("id", JVal.str "ABC")] "ABC"
      = "leads/final/2024-01-02/source=web/utm=direct/industry=na/abc.json"
    ∧ ("leads/final/2024-01-02/source=web/utm=direct/industry=na/ABC.json" : String)
      ≠ "leads/final/2024-01-02/source=web/utm=direct/industry=na/abc.json" := by
  refine ⟨rfl, rfl, by decide⟩

/-- C7, amended: for every stored submission the key is
`pre/status/date/source=.../utm=.../industry=.../id.json`, where an
absent or falsy status, source, utm_source or industry is first replaced
by its stage default (final, web, direct, na) and the resulting value is
slugified (lower-cased, non-alphanumeric runs collapsed to one hyphen,
leading and trailing hyphens trimmed) with the fixed fallback "na" for an
empty slug, while the key namespace, the date slice and the
string-coerced id pass through verbatim, not slugified.  A truthy source
that slugs to empty thus yields `source=na`, and an absent one
`source=web`. -/
theorem storage_key_formula (payload : JObj) (fresh nowIso : String)
    (xff remote uaHdr : Option String) (env : SubmitEnv)
    (hb : truthyS env.bucket = true) (hr : truthyS env.region = true)
    (hs : env.s3Sdk = true) :
    (submitPipeline payload fresh nowIso xff remote uaHdr env true).resp.key
      = orStr env.keyPre "leads" ++ "/" ++ slugOrDefault (some (.str (statusVar payload))) "final"
        ++ "/" ++ String.mk (nowIso.data.take 10)
        ++ "/source=" ++ slugOrDefault (keySource payload) "web"
        ++ "/utm=" ++ slugOrDefault (keyUtm payload) "direct"
        ++ "/industry=" ++ slugOrDefault (keyIndustry payload) "na"
        ++ "/" ++ jsToString (match alook payload "id" with
            | some v => v
            | none => JVal.str fresh) ++ ".json"
    ∧ slugOrDefault (some (JVal.str "!!!")) "web" = "na"
    ∧ slugOrDefault none "web" = "web" := by
  have hid := docVal_id payload fresh nowIso (ipOf xff remote) (orStr uaHdr "")
  refine ⟨?_, rfl, rfl⟩
  simp [submitPipeline, hb, hr, hs, mkStorageKey, hid]

/-- C7 witness: the key formula at a concrete payload whose source slugs
to empty (so the `source=` segment falls back to "na") and whose industry
needs slugification. -/
theorem storage_key_formula_witness :
    (submitPipeline [("source", JVal.str "!!!"),
        ("data", JVal.obj [("industry", JVal.str "Legal Services")])]
        "f" "2024-01-02T03:04:05.678Z" none none none envAll true).resp.key
      = orStr envAll.keyPre "leads" ++ "/"
        ++ slugOrDefault (some (.str (statusVar [("source", JVal.str "!!!"),
            ("data", JVal.obj [("industry", JVal.str "Legal Services")])]))) "final" ++ "/"
        ++ String.mk ("2024-01-02T03:04:05.678Z".data.take 10) ++ "/source="
        ++ slugOrDefault (keySource [("source", JVal.str "!!!"),
            ("data", JVal.obj [("industry", JVal.str "Legal Services")])]) "web"
        ++ "/utm=" ++ slugOrDefault (keyUtm [("source", JVal.str "!!!"),
            ("data", JVal.obj [("industry", JVal.str "Legal Services")])]) "direct"
        ++ "/industry=" ++ slugOrDefault (keyIndustry [("source", JVal.str "!!!"),
            ("data", JVal.obj [("industry", JVal.str "Legal Services")])]) "na"
        ++ "/" ++ jsToString (match alook ([("source", JVal.str "!!!"),
            ("data", JVal.obj [("industry", JVal.str "Legal Services")])] : JObj) "id" with
            | some v => v
            | none => JVal.str "f") ++ ".json"
    ∧ slugOrDefault (some (JVal.str "!!!")) "web" = "na"
    ∧ slugOrDefault none "web" = "web" :=
  storage_key_formula [("source", JVal.str "!!!"),
      ("data", JVal.obj [("industry", JVal.str "Legal Services")])]
    "f" "2024-01-02T03:04:05.678Z" none none none envAll rfl rfl rfl

/-! ## Claim C8 — secondary-index record shape -/

/-- C8, counterexample: the claim stores every absent source field as the
empty string, but an absent `utm_source` is stored as "direct". -/
theorem index_record_utm_default_cex :
    ((submitPipeline [] "f" "2024-01-02T03:04:05.678Z" none none none envAll true).indexWrite.map
        (fun it => alook it "utm_source"))
      = some (some (DdbAttr.S (JVal.str "direct")))
    ∧ JVal.str "direct" ≠ JVal.str "" := by
  constructor
  · rfl
  · intro h
    injection h with h
    exact absurd h (by decide)

/-- C8, amended: every configured ingestion attempts an index write whose
record has exactly the twelve fields in source order, all `S`-tagged;
every field value is a string provided any caller-supplied `id` and
`received_at` are strings (the source passes those two through uncoerced);
and the fields whose source data is absent are stored as empty strings —
except `status`, which defaults to "final", and `utm_source`, which
defaults to "direct". -/
theorem index_record_shape (payload : JObj) (fresh nowIso : String)
    (xff remote uaHdr : Option String) (env : SubmitEnv) (s3Ok : Bool)
    (ht : truthyS env.ddbTable = true)
    (hrg : truthyS (optOr env.region env.ddbRegion) = true)
    (hsdk : env.ddbSdk = true)
    (hid : ∀ v, alook payload "id" = some v → ∃ s, v = JVal.str s)
    (hrecv : ∀ v, alook payload "received_at" = some v → ∃ s, v = JVal.str s) :
    ∃ it, (submitPipeline payload fresh nowIso xff remote uaHdr env s3Ok).indexWrite = some it
      ∧ it.map Prod.fst = ["id", "status", "received_at", "email", "utm_source", "s3_key",
          "first_name", "last_name", "phone", "company", "website", "industry"]
      ∧ (∀ p ∈ it, ∃ s, p.2 = DdbAttr.S (JVal.str s))
      ∧ (jGet (dataVal payload) "email" = none →
          alook it "email" = some (DdbAttr.S (JVal.str "")))
      ∧ (jGet (dataVal payload) "first_name" = none →
          alook it "first_name" = some (DdbAttr.S (JVal.str "")))
      ∧ (jGet (dataVal payload) "last_name" = none →
          alook it "last_name" = some (DdbAttr.S (JVal.str "")))
      ∧ (jGet (dataVal payload) "phone" = none →
          alook it "phone" = some (DdbAttr.S (JVal.str "")))
      ∧ (jGet (dataVal payload) "website" = none →
          alook it "website" = some (DdbAttr.S (JVal.str "")))
      ∧ (jGet (dataVal payload) "industry" = none →
          alook it "industry" = some (DdbAttr.S (JVal.str "")))
      ∧ (jGet (dataVal payload) "name" = none → jGet (dataVal payload) "company_name" = none →
          alook it "company" = some (DdbAttr.S (JVal.str "")))
      ∧ (jGet (dataVal payload) "utm_data" = none →
          alook it "utm_source" = some (DdbAttr.S (JVal.str "direct")))
      ∧ (alook payload "status" = none →
          alook it "status" = some (DdbAttr.S (JVal.str "final"))) := by
  have hdid := docVal_id payload fresh nowIso (ipOf xff remote) (orStr uaHdr "")
  have hdst := docVal_status payload fresh nowIso (ipOf xff remote) (orStr uaHdr "")
  have hdrc := docVal_received_at payload fresh nowIso (ipOf xff remote) (orStr uaHdr "")
  have hids : ∃ s, docVal (buildDoc payload fresh nowIso (ipOf xff remote) (orStr uaHdr "")) "id"
      = JVal.str s := by
    rw [hdid]
    cases h : alook payload "id" with
    | some v =>
      obtain ⟨s, rfl⟩ := hid v h
      exact ⟨s, rfl⟩
    | none => exact ⟨fresh, rfl⟩
  have hrcs : ∃ s, docVal (buildDoc payload fresh nowIso (ipOf xff remote) (orStr uaHdr ""))
      "received_at" = JVal.str s := by
    rw [hdrc]
    cases h : alook payload "received_at" with
    | some v =>
      obtain ⟨s, rfl⟩ := hrecv v h
      exact ⟨s, rfl⟩
    | none => exact ⟨nowIso, rfl⟩
  obtain ⟨s1, hs1⟩ := hids
  obtain ⟨s2, hs2⟩ := hrcs
  refine ⟨ddbItemOf (buildDoc payload fresh nowIso (ipOf xff remote) (orStr uaHdr "")) payload
      ((submitPipeline payload fresh nowIso xff remote uaHdr env s3Ok).resp.key),
    ?_, ?_, ?_, ?_, ?_, ?_, ?_, ?_, ?_, ?_, ?_, ?_⟩
  · simp [submitPipeline, ht, hrg, hsdk]
  · simp [ddbItemOf]
  · intro p hp
    simp [ddbItemOf] at hp
    rcases hp with rfl | rfl | rfl | rfl | rfl | rfl | rfl | rfl | rfl | rfl | rfl | rfl
    · exact ⟨s1, by rw [hs1]⟩
    · exact ⟨_, rfl⟩
    · exact ⟨s2, by rw [hs2]⟩
    · exact ⟨_, rfl⟩
    · exact ⟨_, rfl⟩
    · exact ⟨_, rfl⟩
    · exact ⟨_, rfl⟩
    · exact ⟨_, rfl⟩
    · exact ⟨_, rfl⟩
    · exact ⟨_, rfl⟩
    · exact ⟨_, rfl⟩
    · exact ⟨_, rfl⟩
  · intro h
    simp [ddbItemOf, alook, sOf, truthyOpt, h]
  · intro h
    simp [ddbItemOf, alook, sOf, truthyOpt, h]
  · intro h
    simp [ddbItemOf, alook, sOf, truthyOpt, h]
  · intro h
    simp [ddbItemOf, alook, sOf, truthyOpt, h]
  · intro h
    simp [ddbItemOf, alook, sOf, truthyOpt, h]
  · intro h
    simp [ddbItemOf, alook, sOf, truthyOpt, h]
  · intro h1 h2
    simp [ddbItemOf, alook, sOf, truthyOpt, h1, h2]
  · intro h
    simp [ddbItemOf, alook, truthyOpt, h]
  · intro h
    simp [ddbItemOf, alook, hdst, h, jsFalsy, jsToString]

/-- C8 witness: the record-shape theorem at the empty payload and a
fully configured environment, every hypothesis discharged by computation. -/
theorem index_record_shape_witness :
    ∃ it, (submitPipeline [] "f" "2024-01-02T03:04:05.678Z" none none none envAll true).indexWrite
        = some it
      ∧ it.map Prod.fst = ["id", "status", "received_at", "email", "utm_source", "s3_key",
          "first_name", "last_name", "phone", "company", "website", "industry"]
      ∧ (∀ p ∈ it, ∃ s, p.2 = DdbAttr.S (JVal.str s))
      ∧ (jGet (dataVal []) "email" = none →
          alook it "email" = some (DdbAttr.S (JVal.str "")))
      ∧ (jGet (dataVal []) "first_name" = none →
          alook it "first_name" = some (DdbAttr.S (JVal.str "")))
      ∧ (jGet (dataVal []) "last_name" = none →
          alook it "last_name" = some (DdbAttr.S (JVal.str "")))
      ∧ (jGet (dataVal []) "phone" = none →
          alook it "phone" = some (DdbAttr.S (JVal.str "")))
      ∧ (jGet (dataVal []) "website" = none →
          alook it "website" = some (DdbAttr.S (JVal.str "")))
      ∧ (jGet (dataVal []) "industry" = none →
          alook it "industry" = some (DdbAttr.S (JVal.str "")))
      ∧ (jGet (dataVal []) "name" = none → jGet (dataVal []) "company_name" = none →
          alook it "company" = some (DdbAttr.S (JVal.str "")))
      ∧ (jGet (dataVal []) "utm_data" = none →
          alook it "utm_source" = some (DdbAttr.S (JVal.str "direct")))
      ∧ (alook ([] : JObj) "status" = none →
          alook it "status" = some (DdbAttr.S (JVal.str "final"))) :=
  index_record_shape [] "f" "2024-01-02T03:04:05.678Z" none none none envAll true
    rfl rfl rfl
    (fun v h => by simp [alook] at h)
    (fun v h => by simp [alook] at h)

/-! ## Claim C9 — search response item values -/

/-- C9, counterexample: the claim makes every field value of a returned
item a string, but the `v.S || v.N || v.BOOL || null` projection maps a
stored empty string — which the ingestion writes for absent fields — to
null. -/
theorem search_item_empty_string_null_cex :
    (searchResponseOf ⟨[[("first_name", AttrVal.S "")]], 1, none⟩).items
      = [[("first_name", JVal.null)]]
    ∧ ¬ ∃ s, JVal.null = JVal.str s := by
  constructor
  · rfl
  · rintro ⟨s, h⟩
    cases h

/-- C9, amended: each element of `items` in a 200 search response is the
flat per-attribute projection of a raw item, and a projected field value
is a string exactly when the underlying attribute is a non-empty string-
or number-tagged value; an empty S or N value projects to null, a true
boolean to the boolean, a false boolean to null, and every attribute
without one of the three read tags (null, binary, map, list, sets) to
null. -/
theorem search_items_value_characterization :
    (∀ r : QueryResult, (searchResponseOf r).items = r.items.map projectItem)
    ∧ (∀ i : List (String × AttrVal), projectItem i = i.map (fun p => (p.1, projectAttr p.2)))
    ∧ (∀ s, s ≠ "" → projectAttr (AttrVal.S s) = JVal.str s)
    ∧ (∀ s, s ≠ "" → projectAttr (AttrVal.N s) = JVal.str s)
    ∧ projectAttr (AttrVal.S "") = JVal.null
    ∧ projectAttr (AttrVal.N "") = JVal.null
    ∧ projectAttr (AttrVal.BOOL true) = JVal.bool true
    ∧ projectAttr (AttrVal.BOOL false) = JVal.null
    ∧ projectAttr AttrVal.NULL = JVal.null
    ∧ (∀ b64, projectAttr (AttrVal.B b64) = JVal.null)
    ∧ projectAttr AttrVal.M = JVal.null
    ∧ projectAttr AttrVal.L = JVal.null
    ∧ projectAttr AttrVal.SS = JVal.null
    ∧ projectAttr AttrVal.NS = JVal.null
    ∧ projectAttr AttrVal.BS = JVal.null
    ∧ (∀ a : AttrVal, (∃ s, projectAttr a = JVal.str s) ↔
        ((∃ s, a = AttrVal.S s ∧ s ≠ "") ∨ (∃ s, a = AttrVal.N s ∧ s ≠ ""))) := by
  refine ⟨fun r => rfl, fun i => rfl, ?_, ?_, rfl, rfl, rfl, rfl, rfl, fun b64 => rfl,
    rfl, rfl, rfl, rfl, rfl, ?_⟩
  · intro s h
    simp [projectAttr, h]
  · intro s h
    simp [projectAttr, h]
  · intro a
    constructor
    · rintro ⟨s, hs⟩
      cases a <;> simp [projectAttr] at hs
      case S t =>
        by_cases ht : t = ""
        · simp [ht] at hs
        · left
          exact ⟨t, rfl, ht⟩
      case N t =>
        by_cases ht : t = ""
        · simp [ht] at hs
        · right
          exact ⟨t, rfl, ht⟩
      case BOOL b =>
        cases b <;> simp at hs
    · rintro (⟨t, rfl, ht⟩ | ⟨t, rfl, ht⟩)
      · exact ⟨t, by simp [projectAttr, ht]⟩
      · exact ⟨t, by simp [projectAttr, ht]⟩

/-- C9 witness: the characterization applied at concrete attributes with
its non-emptiness hypotheses discharged. -/
theorem search_items_value_characterization_witness :
    projectAttr (AttrVal.S "alice") = JVal.str "alice"
    ∧ projectAttr (AttrVal.N "42") = JVal.str "42" :=
  ⟨search_items_value_characterization.2.2.1 "alice" (by decide),
   search_items_value_characterization.2.2.2.1 "42" (by decide)⟩

/-! ## Base64 round trip -/

theorem b64Val_b64Char : ∀ n, n < 64 → b64Val (b64Char n) = n := by decide

theorem isB64Char_b64Char : ∀ n, n < 64 → isB64Char (b64Char n) = true := by decide

theorem isB64Char_pad : isB64Char '=' = false := by decide

theorem decodeB64_encodeB64 : ∀ bs : Bytes, wfBytes bs → decodeB64 (encodeB64 bs) = bs := by
  intro bs
  unfold decodeB64
  induction bs using encodeB64.induct with
  | case1 =>
    intro h
    rfl
  | case2 a =>
    intro h
    have ha : a < 256 := h a (by simp)
    have h1 : a / 4 < 64 := by omega
    have h2 : a % 4 * 16 < 64 := by omega
    simp [encodeB64, isB64Char_b64Char _ h1, isB64Char_b64Char _ h2, isB64Char_pad,
      b64Val_b64Char _ h1, b64Val_b64Char _ h2, decode4]
    omega
  | case3 a b =>
    intro h
    have ha : a < 256 := h a (by simp)
    have hb : b < 256 := h b (by simp)
    have h1 : a / 4 < 64 := by omega
    have h2 : a % 4 * 16 + b / 16 < 64 := by omega
    have h3 : b % 16 * 4 < 64 := by omega
    simp [encodeB64, isB64Char_b64Char _ h1, isB64Char_b64Char _ h2, isB64Char_b64Char _ h3,
      isB64Char_pad, b64Val_b64Char _ h1, b64Val_b64Char _ h2, b64Val_b64Char _ h3, decode4]
    omega
  | case4 a b c rest ih =>
    intro h
    have ha : a < 256 := h a (by simp)
    have hb : b < 256 := h b (by simp)
    have hc : c < 256 := h c (by simp)
    have hrest : wfBytes rest := fun x hx => h x (by simp [hx])
    have h1 : a / 4 < 64 := by omega
    have h2 : a % 4 * 16 + b / 16 < 64 := by omega
    have h3 : b % 16 * 4 + c / 64 < 64 := by omega
    have h4 : c % 64 < 64 := by omega
    simp [encodeB64, isB64Char_b64Char _ h1, isB64Char_b64Char _ h2, isB64Char_b64Char _ h3,
      isB64Char_b64Char _ h4, b64Val_b64Char _ h1, b64Val_b64Char _ h2, b64Val_b64Char _ h3,
      b64Val_b64Char _ h4, decode4, ih hrest]
    omega

/-! ## JSON string literal round trip -/

theorem hexVal_hexDigitByte : ∀ n, n < 16 → hexVal (hexDigitByte n) = some n := by decide

@[simp] theorem parseStr_quote (rest : Bytes) : parseStr (34 :: rest) = some ([], rest) := rfl

@[simp] theorem parseStr_escQuote (r : Bytes) :
    parseStr (92 :: 34 :: r) = (parseStr r).map (fun p => (34 :: p.1, p.2)) := rfl

@[simp] theorem parseStr_escBack (r : Bytes) :
    parseStr (92 :: 92 :: r) = (parseStr r).map (fun p => (92 :: p.1, p.2)) := rfl

@[simp] theorem parseStr_escB (r : Bytes) :
    parseStr (92 :: 98 :: r) = (parseStr r).map (fun p => (8 :: p.1, p.2)) := rfl

@[simp] theorem parseStr_escT (r : Bytes) :
    parseStr (92 :: 116 :: r) = (parseStr r).map (fun p => (9 :: p.1, p.2)) := rfl

@[simp] theorem parseStr_escN (r : Bytes) :
    parseStr (92 :: 110 :: r) = (parseStr r).map (fun p => (10 :: p.1, p.2)) := rfl

@[simp] theorem parseStr_escF (r : Bytes) :
    parseStr (92 :: 102 :: r) = (parseStr r).map (fun p => (12 :: p.1, p.2)) := rfl

@[simp] theorem parseStr_escR (r : Bytes) :
    parseStr (92 :: 114 :: r) = (parseStr r).map (fun p => (13 :: p.1, p.2)) := rfl

set_option maxHeartbeats 1600000 in
theorem parseStr_u00 (x y : Nat) (r : Bytes) (hx : x < 16) (hy : y < 16) :
    parseStr (92 :: 117 :: 48 :: 48 :: hexDigitByte x :: hexDigitByte y :: r)
      = (parseStr r).map (fun p => ((x * 16 + y) :: p.1, p.2)) := by
  conv_lhs => rw [parseStr.eq_def]
  have h48 : hexVal 48 = some 0 := rfl
  simp [h48, hexVal_hexDigitByte _ hx, hexVal_hexDigitByte _ hy]

set_option maxHeartbeats 1600000 in
theorem parseStr_plain (b : Nat) (rest : Bytes) (h1 : b ≠ 34) (h2 : b ≠ 92)
    (h3 : ¬ b < 32) :
    parseStr (b :: rest) = (parseStr rest).map (fun p => (b :: p.1, p.2)) := by
  conv_lhs => rw [parseStr.eq_def]
  simp [h1, h2, h3]

theorem parseStr_round (s : Bytes) (rest : Bytes) :
    parseStr (escBytes s ++ (34 :: rest)) = some (s, rest) := by
  induction s with
  | nil => rfl
  | cons b t ih =>
    have hesc : escBytes (b :: t) ++ (34 :: rest)
        = escByte b ++ (escBytes t ++ (34 :: rest)) := by
      simp [escBytes]
    rw [hesc]
    by_cases h34 : b = 34
    · subst h34
      simp [escByte, ih]
    · by_cases h92 : b = 92
      · subst h92
        simp [escByte, ih]
      · by_cases h8 : b = 8
        · subst h8
          simp [escByte, ih]
        · by_cases h9 : b = 9
          · subst h9
            simp [escByte, ih]
          · by_cases h10 : b = 10
            · subst h10
              simp [escByte, ih]
            · by_cases h12 : b = 12
              · subst h12
                simp [escByte, ih]
              · by_cases h13 : b = 13
                · subst h13
                  simp [escByte, ih]
                · by_cases hlt : b < 32
                  · have hb : escByte b
                        = [92, 117, 48, 48, hexDigitByte (b / 16), hexDigitByte (b % 16)] := by
                      simp [escByte, h34, h92, h8, h9, h10, h12, h13, hlt]
                    rw [hb]
                    rw [show ([92, 117, 48, 48, hexDigitByte (b / 16), hexDigitByte (b % 16)]
                          ++ (escBytes t ++ (34 :: rest)))
                        = 92 :: 117 :: 48 :: 48 :: hexDigitByte (b / 16) :: hexDigitByte (b % 16)
                          :: (escBytes t ++ (34 :: rest)) from rfl]
                    rw [parseStr_u00 (b / 16) (b % 16) _ (by omega) (by omega), ih]
                    have hbv : b / 16 * 16 + b % 16 = b := by omega
                    rw [hbv]
                    rfl
                  · have hb : escByte b = [b] := by
                      simp [escByte, h34, h92, h8, h9, h10, h12, h13, hlt]
                    rw [hb]
                    rw [show ([b] ++ (escBytes t ++ (34 :: rest)))
                        = b :: (escBytes t ++ (34 :: rest)) from rfl]
                    rw [parseStr_plain b _ h34 h92 hlt, ih]
                    rfl

/-! ## Parser round trip on serialized keys -/

theorem strLit_append (v X : Bytes) :
    strLit v ++ X = 34 :: (escBytes v ++ (34 :: X)) := by
  simp [strLit]

theorem parseVal_strLit (v : Bytes) (rest : Bytes) (f : Nat) :
    parseVal (f + 1) (strLit v ++ rest) = some (Json.str v, rest) := by
  rw [strLit_append]
  show (parseStr (escBytes v ++ (34 :: rest))).map (fun p => (Json.str p.1, p.2)) = _
  rw [parseStr_round]
  rfl

theorem parseVal_attr (v : Bytes) (rest : Bytes) (f : Nat) :
    parseVal (f + 3) (attrBytes v ++ rest)
      = some (Json.obj [([83], Json.str v)], rest) := by
  have hshape : attrBytes v ++ rest
      = 123 :: 34 :: 83 :: 34 :: 58 :: (strLit v ++ (125 :: rest)) := by
    simp [attrBytes, strLit, escBytes, escByte]
  rw [hshape, show f + 3 = ((f + 1) + 1) + 1 from rfl]
  show ((match parseVal (f + 1) (strLit v ++ (125 :: rest)) with
      | none => none
      | some (v, r3) =>
        match skipWs r3 with
        | 44 :: r4 => (parseMembers (f + 1) r4).map
            (fun (p : List (Bytes × Json) × Bytes) => (([83], v) :: p.1, p.2))
        | 125 :: r4 => some ([([83], v)], r4)
        | _ => none)).map (fun (p : List (Bytes × Json) × Bytes) => (Json.obj p.1, p.2)) = _
  rw [parseVal_strLit]
  rfl

theorem parseMembers_round : ∀ (ms : Lekey) (m : Bytes × Bytes) (rest : Bytes) (f : Nat),
    parseMembers (f + (4 * ms.length + 5)) (memBytes m ++ (tailBytes ms ++ (125 :: rest)))
      = some ((m.1, Json.obj [([83], Json.str m.2)])
          :: ms.map (fun p => (p.1, Json.obj [([83], Json.str p.2)])), rest) := by
  intro ms
  induction ms with
  | nil =>
    intro m rest f
    have hshape : memBytes m ++ (tailBytes [] ++ (125 :: rest))
        = 34 :: (escBytes m.1 ++ (34 :: (58 :: (attrBytes m.2 ++ (125 :: rest))))) := by
      simp [memBytes, strLit, tailBytes]
    rw [hshape, show f + (4 * ([] : Lekey).length + 5) = (((f + 1) + 3)) + 1 from by simp only [List.length_nil]]
    show (match parseStr (escBytes m.1 ++ (34 :: (58 :: (attrBytes m.2 ++ (125 :: rest))))) with
      | none => none
      | some (name, r1) =>
        match skipWs r1 with
        | 58 :: r2 =>
          match parseVal ((f + 1) + 3) r2 with
          | none => none
          | some (v, r3) =>
            match skipWs r3 with
            | 44 :: r4 => (parseMembers ((f + 1) + 3) r4).map
                (fun (p : List (Bytes × Json) × Bytes) => ((name, v) :: p.1, p.2))
            | 125 :: r4 => some ([(name, v)], r4)
            | _ => none
        | _ => none) = _
    rw [parseStr_round]
    show (match parseVal ((f + 1) + 3) (attrBytes m.2 ++ (125 :: rest)) with
      | none => none
      | some (v, r3) =>
        match skipWs r3 with
        | 44 :: r4 => (parseMembers ((f + 1) + 3) r4).map
            (fun (p : List (Bytes × Json) × Bytes) => ((m.1, v) :: p.1, p.2))
        | 125 :: r4 => some ([(m.1, v)], r4)
        | _ => none) = _
    rw [parseVal_attr]
    rfl
  | cons m2 ms ih =>
    intro m rest f
    have hshape : memBytes m ++ (tailBytes (m2 :: ms) ++ (125 :: rest))
        = 34 :: (escBytes m.1 ++ (34 :: (58 :: (attrBytes m.2
            ++ (44 :: (memBytes m2 ++ (tailBytes ms ++ (125 :: rest)))))))) := by
      simp [memBytes, strLit, tailBytes]
    rw [hshape, show f + (4 * (m2 :: ms : Lekey).length + 5)
        = (f + 4 * ms.length + 8) + 1 from by simp only [List.length_cons]; omega]
    show (match parseStr (escBytes m.1 ++ (34 :: (58 :: (attrBytes m.2
        ++ (44 :: (memBytes m2 ++ (tailBytes ms ++ (125 :: rest)))))))) with
      | none => none
      | some (name, r1) =>
        match skipWs r1 with
        | 58 :: r2 =>
          match parseVal (f + 4 * ms.length + 8) r2 with
          | none => none
          | some (v, r3) =>
            match skipWs r3 with
            | 44 :: r4 => (parseMembers (f + 4 * ms.length + 8) r4).map
                (fun (p : List (Bytes × Json) × Bytes) => ((name, v) :: p.1, p.2))
            | 125 :: r4 => some ([(name, v)], r4)
            | _ => none
        | _ => none) = _
    rw [parseStr_round]
    show (match parseVal (f + 4 * ms.length + 8)
        (attrBytes m.2 ++ (44 :: (memBytes m2 ++ (tailBytes ms ++ (125 :: rest))))) with
      | none => none
      | some (v, r3) =>
        match skipWs r3 with
        | 44 :: r4 => (parseMembers (f + 4 * ms.length + 8) r4).map
            (fun (p : List (Bytes × Json) × Bytes) => ((m.1, v) :: p.1, p.2))
        | 125 :: r4 => some ([(m.1, v)], r4)
        | _ => none) = _
    have hA : parseVal (f + 4 * ms.length + 8)
        (attrBytes m.2 ++ (44 :: (memBytes m2 ++ (tailBytes ms ++ (125 :: rest)))))
        = some (Json.obj [([83], Json.str m.2)],
            44 :: (memBytes m2 ++ (tailBytes ms ++ (125 :: rest)))) := by
      rw [show f + 4 * ms.length + 8 = (f + 4 * ms.length + 5) + 3 from by omega]
      exact parseVal_attr _ _ _
    rw [hA]
    show (parseMembers (f + 4 * ms.length + 8) (memBytes m2 ++ (tailBytes ms ++ (125 :: rest)))).map
        (fun (p : List (Bytes × Json) × Bytes)
          => ((m.1, Json.obj [([83], Json.str m.2)]) :: p.1, p.2)) = _
    have hM : parseMembers (f + 4 * ms.length + 8)
        (memBytes m2 ++ (tailBytes ms ++ (125 :: rest)))
        = some ((m2.1, Json.obj [([83], Json.str m2.2)])
            :: ms.map (fun p => (p.1, Json.obj [([83], Json.str p.2)])), rest) := by
      rw [show f + 4 * ms.length + 8 = (f + 3) + (4 * ms.length + 5) from by omega]
      exact ih m2 rest (f + 3)
    rw [hM]
    rfl

theorem parseVal_lekey_cons (m : Bytes × Bytes) (ms : Lekey) (rest : Bytes) (f : Nat) :
    parseVal (f + (4 * ms.length + 6)) (stringifyLekey (m :: ms) ++ rest)
      = some (lekeyToJson (m :: ms), rest) := by
  have hmem : memBytes m ++ (tailBytes ms ++ (125 :: rest))
      = 34 :: (escBytes m.1 ++ (34 :: (58 :: (attrBytes m.2
          ++ (tailBytes ms ++ (125 :: rest)))))) := by
    simp [memBytes, strLit]
  have hshape : stringifyLekey (m :: ms) ++ rest
      = 123 :: (34 :: (escBytes m.1 ++ (34 :: (58 :: (attrBytes m.2
          ++ (tailBytes ms ++ (125 :: rest))))))) := by
    rw [← hmem]
    simp [stringifyLekey]
  rw [hshape, show f + (4 * ms.length + 6) = (f + (4 * ms.length + 5)) + 1 from by omega]
  show (parseMembers (f + (4 * ms.length + 5))
      (34 :: (escBytes m.1 ++ (34 :: (58 :: (attrBytes m.2
        ++ (tailBytes ms ++ (125 :: rest)))))))).map
      (fun (p : List (Bytes × Json) × Bytes) => (Json.obj p.1, p.2)) = _
  rw [← hmem, parseMembers_round]
  rfl

theorem parseVal_lekey_nil (rest : Bytes) (f : Nat) :
    parseVal (f + 1) (stringifyLekey [] ++ rest) = some (lekeyToJson [], rest) := by
  have hshape : stringifyLekey [] ++ rest = 123 :: 125 :: rest := by
    simp [stringifyLekey]
  rw [hshape]
  rfl

theorem memBytes_len (m : Bytes × Bytes) : 11 ≤ (memBytes m).length := by
  have h83 : (escBytes [83]).length = 1 := rfl
  simp [memBytes, attrBytes, strLit, h83]
  omega

theorem tailBytes_len (ms : Lekey) : 4 * ms.length ≤ (tailBytes ms).length := by
  induction ms with
  | nil => simp [tailBytes]
  | cons m t ih =>
    have hm := memBytes_len m
    simp [tailBytes] at ih ⊢
    omega

theorem stringifyLekey_cons_len (m : Bytes × Bytes) (ms : Lekey) :
    4 * ms.length + 6 ≤ (stringifyLekey (m :: ms)).length + 1 := by
  have h1 := memBytes_len m
  have h2 := tailBytes_len ms
  simp [stringifyLekey]
  omega

theorem jsonParseFull_stringify (k : Lekey) :
    jsonParseFull (stringifyLekey k) = some (lekeyToJson k) := by
  cases k with
  | nil => rfl
  | cons m ms =>
    unfold jsonParseFull
    have hlen := stringifyLekey_cons_len m ms
    rw [show (stringifyLekey (m :: ms)).length + 1
        = ((stringifyLekey (m :: ms)).length + 1 - (4 * ms.length + 6)) + (4 * ms.length + 6)
        from by omega]
    have h := parseVal_lekey_cons m ms []
      ((stringifyLekey (m :: ms)).length + 1 - (4 * ms.length + 6))
    rw [List.append_nil] at h
    rw [h]
    rfl

/-! ## Well-formedness of serialized keys -/

theorem wfBytes_nil : wfBytes [] := by
  intro x hx
  cases hx

theorem wfBytes_cons (b : Nat) (l : Bytes) (hb : b < 256) (hl : wfBytes l) :
    wfBytes (b :: l) := by
  intro x hx
  rcases List.mem_cons.mp hx with rfl | h
  · exact hb
  · exact hl x h

theorem wfBytes_append {a b : Bytes} (ha : wfBytes a) (hb : wfBytes b) :
    wfBytes (a ++ b) := by
  intro x hx
  rcases List.mem_append.mp hx with h | h
  · exact ha x h
  · exact hb x h

theorem hexDigitByte_lt (n : Nat) (h : n < 16) : hexDigitByte n < 256 := by
  unfold hexDigitByte
  split <;> omega

theorem wfBytes_escByte (b : Nat) (h : b < 256) : wfBytes (escByte b) := by
  have h1 : hexDigitByte (b / 16) < 256 := hexDigitByte_lt _ (by omega)
  have h2 : hexDigitByte (b % 16) < 256 := hexDigitByte_lt _ (by omega)
  intro x hx
  unfold escByte at hx
  split_ifs at hx <;> simp_all <;> omega

theorem wfBytes_escBytes (s : Bytes) (h : wfBytes s) : wfBytes (escBytes s) := by
  intro x hx
  unfold escBytes at hx
  rw [List.mem_flatten] at hx
  obtain ⟨l, hl, hxl⟩ := hx
  obtain ⟨b, hb, rfl⟩ := List.mem_map.mp hl
  exact wfBytes_escByte b (h b hb) x hxl

theorem wfBytes_strLit (s : Bytes) (h : wfBytes s) : wfBytes (strLit s) := by
  unfold strLit
  exact wfBytes_cons _ _ (by omega)
    (wfBytes_append (wfBytes_escBytes s h) (wfBytes_cons _ _ (by omega) wfBytes_nil))

theorem wfBytes_attrBytes (v : Bytes) (h : wfBytes v) : wfBytes (attrBytes v) := by
  unfold attrBytes
  exact wfBytes_cons _ _ (by omega)
    (wfBytes_append (wfBytes_strLit [83] (by decide))
      (wfBytes_cons _ _ (by omega)
        (wfBytes_append (wfBytes_strLit v h) (wfBytes_cons _ _ (by omega) wfBytes_nil))))

theorem wfBytes_memBytes (m : Bytes × Bytes) (h1 : wfBytes m.1) (h2 : wfBytes m.2) :
    wfBytes (memBytes m) := by
  unfold memBytes
  exact wfBytes_append (wfBytes_strLit m.1 h1)
    (wfBytes_cons _ _ (by omega) (wfBytes_attrBytes m.2 h2))

theorem wfBytes_tailBytes (ms : Lekey) (h : wfLekey ms) : wfBytes (tailBytes ms) := by
  induction ms with
  | nil => exact wfBytes_nil
  | cons m t ih =>
    have hm := h m (List.mem_cons_self m t)
    have ht : wfLekey t := fun p hp => h p (List.mem_cons_of_mem m hp)
    have hstep : tailBytes (m :: t) = (44 :: memBytes m) ++ tailBytes t := by
      simp [tailBytes]
    rw [hstep]
    exact wfBytes_append (wfBytes_cons _ _ (by omega) (wfBytes_memBytes m hm.1 hm.2)) (ih ht)

theorem wfBytes_stringify (k : Lekey) (h : wfLekey k) : wfBytes (stringifyLekey k) := by
  cases k with
  | nil => decide
  | cons m ms =>
    have hm := h m (List.mem_cons_self m ms)
    have hms : wfLekey ms := fun p hp => h p (List.mem_cons_of_mem m hp)
    unfold stringifyLekey
    exact wfBytes_cons _ _ (by omega)
      (wfBytes_append (wfBytes_append (wfBytes_memBytes m hm.1 hm.2) (wfBytes_tailBytes ms hms))
        (wfBytes_cons _ _ (by omega) wfBytes_nil))

/-- The encoder/decoder pair inverts on well-formed keys. -/
theorem decodeToken_encodeToken (k : Lekey) (h : wfLekey k) :
    decodeToken (encodeToken k) = some (lekeyToJson k) := by
  unfold decodeToken encodeToken
  rw [show (String.mk (encodeB64 (stringifyLekey k))).data = encodeB64 (stringifyLekey k)
      from rfl]
  rw [decodeB64_encodeB64 _ (wfBytes_stringify k h)]
  exact jsonParseFull_stringify k

/-! ## Claim C4 — pagination codec -/

theorem stringifyLekey_head (k : Lekey) : ∃ t, stringifyLekey k = 123 :: t := by
  cases k with
  | nil => exact ⟨[125], rfl⟩
  | cons m ms => exact ⟨_, rfl⟩

theorem encodeB64_123_head (t : Bytes) : (encodeB64 (123 :: t)).head? = some 'e' := by
  rcases t with _ | ⟨b, _ | ⟨c, r⟩⟩ <;> rfl

/-- C4, counterexample: the claim says every token not produced by the
encoder decodes to no resume position, but a token whose base64-decoding
is valid JSON — here "Ingi", which decodes to the JSON text for the
string "x" — yields a parsed value and therefore seeds the scan, even
though no serialized key (always a brace-led object, hence a token
starting with the letter e) encodes to it. -/
theorem decode_nonencoder_token_cex :
    (¬ ∃ k : Lekey, wfLekey k ∧ encodeToken k = "Ingi")
    ∧ decodeToken "Ingi" = some (Json.str [120])
    ∧ decodeToken "Ingi" ≠ none := by
  refine ⟨?_, rfl, ?_⟩
  · rintro ⟨k, hwf, henc⟩
    obtain ⟨t, ht⟩ := stringifyLekey_head k
    have hh : (encodeToken k).data.head? = some 'e' := by
      unfold encodeToken
      rw [show (String.mk (encodeB64 (stringifyLekey k))).data
          = encodeB64 (stringifyLekey k) from rfl, ht]
      exact encodeB64_123_head t
    rw [henc] at hh
    have hI : "Ingi".data.head? = some 'I' := rfl
    rw [hI] at hh
    injection hh with hIe
    exact absurd hIe (by decide)
  · intro hn
    rw [show decodeToken "Ingi" = some (Json.str [120]) from rfl] at hn
    cases hn

/-- C4, amended: decoding the token obtained by encoding any
JSON-representable last-evaluated key yields that key's JSON value again;
decoding is total (never raises) and yields a resume position only when
the base64 payload parses as one complete JSON text — in particular the
tokens for the malformed number texts `01` (leading zero), `--1`, `1.`
and `1e+`, and a token with no base64 payload at all, all decode to none,
just as the caught `JSON.parse` throw leaves no resume position.  (An
input that base64-decodes to valid JSON other than an encoder output —
see the counterexample — decodes to that value, not to none.) -/
theorem pagination_codec_roundtrip :
    (∀ k : Lekey, wfLekey k → decodeToken (encodeToken k) = some (lekeyToJson k))
    ∧ decodeToken "MDE=" = none
    ∧ decodeToken "LS0x" = none
    ∧ decodeToken "MS4=" = none
    ∧ decodeToken "MWUr" = none
    ∧ decodeToken "" = none := by
  exact ⟨decodeToken_encodeToken, rfl, rfl, rfl, rfl, rfl⟩

/-- C4 witness: the round trip evaluated at the concrete key mapping
attribute "id" to value "a". -/
theorem pagination_codec_roundtrip_witness :
    decodeToken (encodeToken [([105, 100], [97])]) = some (lekeyToJson [([105, 100], [97])]) :=
  pagination_codec_roundtrip.1 [([105, 100], [97])] (by decide)
